import Mathlib

/-!
Shallow embedding of the EDF decoder in `edf.py`: the Python-level string
and slicing helpers, the `Scaler`, `Signal` and `EdfHeader` classes, and the
`EdfRecording` streaming state machine, together with theorems checking the
specification's claims against this embedding.

Machine integers are modelled as `ℤ`/`ℕ`; Python floats are modelled as `ℚ`
(exact arithmetic; binary rounding of IEEE doubles is not modelled, no claim
below depends on it).  Fallible Python code paths are modelled with
`Except PyErr`.
-/

/-- Kinds of Python exceptions raised by the embedded code paths.
`exception` stands for the bare `Exception` raised by `EdfHeader.parse`. -/
inductive PyErr where
  | valueError
  | typeError
  | structError
  | keyError
  | attributeError
  | exception
  deriving DecidableEq, Repr

/-- The `UNDEFINED` sentinel constant from `edf.py`. -/
def UNDEFINED : ℤ := -32768

/-- Characters stripped by Python's `str.strip()` / `bytes.strip()`. -/
def isPyWhitespace (c : Char) : Bool :=
  c = ' ' || c = '\t' || c = '\n' || c = '\r' || c = '\x0b' || c = '\x0c'

/-- Python `strip()` on a character list. -/
def pyStripList (l : List Char) : List Char :=
  ((l.dropWhile isPyWhitespace).reverse.dropWhile isPyWhitespace).reverse

/-- Continuation of a digit run in a Python numeric literal: ASCII digits
with single underscores allowed between digits; a misplaced underscore makes
the whole literal invalid (`none`); otherwise returns the digits read (with
underscores removed) and the unread rest. -/
def digitsUGo : List Char → Option (List Char × List Char)
  | [] => some ([], [])
  | '_' :: c :: rest =>
      if c.isDigit then (digitsUGo rest).map (fun p => (c :: p.1, p.2)) else none
  | ['_'] => none
  | c :: rest =>
      if c.isDigit then (digitsUGo rest).map (fun p => (c :: p.1, p.2))
      else some ([], c :: rest)

/-- A digit run: at least one leading ASCII digit, then `digitsUGo`. -/
def digitsU : List Char → Option (List Char × List Char)
  | c :: rest =>
      if c.isDigit then (digitsUGo rest).map (fun p => (c :: p.1, p.2)) else none
  | [] => none

/-- Numeric value of a list of ASCII digits, base 10. -/
def natOfDigits (ds : List Char) : ℕ :=
  ds.foldl (fun a c => 10 * a + (c.toNat - 48)) 0

/-- Model of Python `int(s)` on a string: strip whitespace, optional sign,
an ASCII digit run (underscores between digits allowed), nothing else. -/
def pyIntOfString (s : String) : Option ℤ :=
  let core : List Char → Option ℤ := fun cs =>
    match digitsU cs with
    | some (ds, []) => some (natOfDigits ds : ℤ)
    | _ => none
  match pyStripList s.toList with
  | '+' :: rest => core rest
  | '-' :: rest => (core rest).map (fun n => -n)
  | rest => core rest

/-- Signed exponent digits of a float literal, which must end the string. -/
def floatExpSigned (l : List Char) : Option ℤ :=
  let core : List Char → Option ℤ := fun cs =>
    match digitsU cs with
    | some (ds, []) => some (natOfDigits ds : ℤ)
    | _ => none
  match l with
  | '+' :: rest => core rest
  | '-' :: rest => (core rest).map (fun n => -n)
  | rest => core rest

/-- Optional exponent part of a float literal: empty, or `e`/`E` then a
signed digit run ending the string. -/
def floatExp : List Char → Option ℤ
  | [] => some 0
  | 'e' :: rest => floatExpSigned rest
  | 'E' :: rest => floatExpSigned rest
  | _ => none

/-- Rational value of a parsed decimal literal `[-]ipart.fpart e exp`. -/
def mkFloatVal (sign : Bool) (ipart fpart : List Char) (e : ℤ) : ℚ :=
  let m : ℚ := (natOfDigits (ipart ++ fpart) : ℚ) / (10 : ℚ) ^ fpart.length
  let p : ℚ := if 0 ≤ e then (10 : ℚ) ^ e.toNat else 1 / (10 : ℚ) ^ (-e).toNat
  (if sign then -m else m) * p

/-- Model of Python `float(s)` on finite decimal literals: strip, optional
sign, digits with optional fraction and exponent.  The special literals
`inf`/`infinity`/`nan` have no rational value and are treated as parse
failures here; no claim below involves them. -/
def pyFloatOfString (s : String) : Option ℚ :=
  let l := pyStripList s.toList
  let sign : Bool := match l with | '-' :: _ => true | _ => false
  let body : List Char := match l with
    | '+' :: rest => rest
    | '-' :: rest => rest
    | rest => rest
  match body with
  | '.' :: rest =>
      match digitsU rest with
      | some (fs, r) => (floatExp r).map (fun e => mkFloatVal sign [] fs e)
      | none => none
  | _ =>
      match digitsU body with
      | some (ds, r) =>
          match r with
          | '.' :: r2 =>
              match digitsU r2 with
              | some (fs, r3) => (floatExp r3).map (fun e => mkFloatVal sign ds fs e)
              | none => (floatExp r2).map (fun e => mkFloatVal sign ds [] e)
          | _ => (floatExp r).map (fun e => mkFloatVal sign ds [] e)
      | none => none

/-- Model of `byte_array_to_string`: `chr` applied to every byte, joined. -/
def byteArrayToString (l : List ℕ) : String :=
  String.mk (l.map (fun b => Char.ofNat b))

/-- Model of `string_to_numerical`: try `int` on the stripped string, then
`float` on the original, falling back to the `UNDEFINED` sentinel. -/
def stringToNumerical (s : String) : ℚ :=
  match pyIntOfString (String.mk (pyStripList s.toList)) with
  | some n => (n : ℚ)
  | none =>
      match pyFloatOfString s with
      | some q => q
      | none => (UNDEFINED : ℚ)

/-- Model of Python `hex(n)` for a nonnegative argument: `0x` followed by
the minimal run of lowercase hexadecimal digits. -/
def pyHexOfNat (n : ℕ) : String :=
  "0x" ++ String.mk (Nat.toDigits 16 n)

/-- `numerical_to_hex_string` from `edf.py` for an integer input. -/
def numericalToHexString (val : ℤ) (nbits : ℕ) : String :=
  pyHexOfNat ((val + 2 ^ nbits) % 2 ^ nbits).toNat

/-- Python `int()` truncation toward zero of a rational. -/
def pyTrunc (q : ℚ) : ℤ := if q < 0 then -(⌊-q⌋) else ⌊q⌋

/-- Python slice-bound normalisation for a sequence of length `n`. -/
def pyBound (n : ℕ) (i : ℤ) : ℕ :=
  if i < 0 then ((n : ℤ) + i).toNat else min i.toNat n

/-- Python `l[a:b]`. -/
def pySlice {α : Type} (l : List α) (a b : ℤ) : List α :=
  (l.drop (pyBound l.length a)).take (pyBound l.length b - pyBound l.length a)

/-- Python `l[:b]`. -/
def pyTake {α : Type} (l : List α) (b : ℤ) : List α := pySlice l 0 b

/-- Python `l[a:]`. -/
def pyDrop {α : Type} (l : List α) (a : ℤ) : List α := l.drop (pyBound l.length a)

/-- Contiguous slice with nonnegative offset and length. -/
def natSlice {α : Type} (l : List α) (a len : ℕ) : List α := (l.drop a).take len

/-- Model of `math.isclose` with the default tolerances
(`rel_tol = 1e-09`, `abs_tol = 0.0`). -/
def mathIsclose (a b : ℚ) : Bool :=
  decide (|a - b| ≤ max ((1 / 1000000000) * max |a| |b|) 0)

/-- The Python values that flow through the sample-formatting pipeline. -/
inductive PyVal where
  | int (n : ℤ)
  | float (q : ℚ)
  | str (s : String)
  | pynone
  deriving DecidableEq, Repr

/-- Python truthiness of a `PyVal`. -/
def pyTruthy : PyVal → Bool
  | .int n => n ≠ 0
  | .float q => q ≠ 0
  | .str s => s ≠ ""
  | .pynone => false

/-- Python `float(x)` on a value: numbers pass through, a string is parsed
(`ValueError` on failure), `None` raises `TypeError`. -/
def pyFloatConv : PyVal → Except PyErr ℚ
  | .int n => .ok (n : ℚ)
  | .float q => .ok q
  | .str s =>
      match pyFloatOfString s with
      | some q => .ok q
      | none => .error .valueError
  | .pynone => .error .typeError

/-- State of a constructed `Scaler`: either the fields are all unset
(`None` in Python) or all four derived numbers are present. -/
inductive ScalerState where
  | unset
  | bounds (pDelta dDelta pMin dMin : ℚ)
  deriving DecidableEq, Repr

/-- `Scaler.__init__`: converts the four bounds with `float()` in argument
order; a `TypeError` (as raised by a `None` bound) is caught, leaving every
field unset, while a `ValueError` (unparseable string) propagates. -/
def scalerInit (pmax pmin dmax dmin : PyVal) : Except PyErr ScalerState :=
  match pyFloatConv pmax with
  | .error .typeError => .ok .unset
  | .error e => .error e
  | .ok pM =>
    match pyFloatConv pmin with
    | .error .typeError => .ok .unset
    | .error e => .error e
    | .ok pm =>
      match pyFloatConv dmax with
      | .error .typeError => .ok .unset
      | .error e => .error e
      | .ok dM =>
        match pyFloatConv dmin with
        | .error .typeError => .ok .unset
        | .error e => .error e
        | .ok dm => .ok (.bounds (pM - pm) (dM - dm) pm dm)

/-- Approximate model of `float('%.3f' % x)`: rounding to three decimal
places (the exact tie behaviour of the binary double does not matter to any
claim below). -/
def round3 (q : ℚ) : ℚ := ((round (1000 * q) : ℤ) : ℚ) / 1000

/-- `Scaler.scale` applied to one value.  The guard
`d_delta > 0 or d_delta < 0` raises `TypeError` when the fields are unset
(a `None` comparison); when `d_delta = 0` the argument is returned
unchanged; otherwise the linear transform runs (a `TypeError` for a
non-numeric argument). -/
def scalerScale (sc : ScalerState) (v : PyVal) : Except PyErr PyVal :=
  match sc with
  | .unset => .error .typeError
  | .bounds pD dD pMin dMin =>
      if dD > 0 ∨ dD < 0 then
        match v with
        | .int n => .ok (.float (round3 (pD * ((n : ℚ) - dMin) / dD + pMin)))
        | .float q => .ok (.float (round3 (pD * (q - dMin) / dD + pMin)))
        | _ => .error .typeError
      else .ok v

/-- One per-channel signal descriptor. -/
structure Signal where
  metadata : List (String × String)
  samples : List (List ℤ)
  scaler : Option ScalerState
  deriving DecidableEq, Repr

/-- A freshly constructed `Signal()`. -/
def Signal.init : Signal := ⟨[], [], none⟩

/-- Python dict assignment `d[k] = v` on an association list kept in
insertion order. -/
def dictSet (d : List (String × String)) (k v : String) : List (String × String) :=
  if d.any (fun p => p.1 = k) then d.map (fun p => if p.1 = k then (k, v) else p)
  else d ++ [(k, v)]

/-- Python dict lookup returning `none` for a missing key. -/
def dictGet (d : List (String × String)) (k : String) : Option String :=
  (d.find? (fun p => p.1 = k)).map (fun p => p.2)

/-- The ten signal-metadata field names, in file order. -/
def SIGNAL_HEADER_FIELDS : List String :=
  ["Label", "Transducer Type", "Physical dimension", "Physical minimum",
   "Physical maximum", "Digital minimum", "Digital maximum",
   "Prefiltering", "Samples", "Reserved"]

/-- The ten signal-metadata field byte widths, in file order. -/
def SIGNAL_HEADER_FIELDS_SIZE : List ℕ := [16, 80, 8, 8, 8, 8, 8, 80, 8, 32]

/-- `Signal.set_metadata`: store the field; once ten distinct keys are
present, build the `Scaler` from the four bound fields (a missing bound key
would raise `KeyError`; an unparseable bound propagates `ValueError` out of
`Scaler.__init__`). -/
def Signal.setMetadata (sig : Signal) (field value : String) : Except PyErr Signal :=
  let md := dictSet sig.metadata field value
  if md.length = SIGNAL_HEADER_FIELDS.length then
    match dictGet md "Physical maximum", dictGet md "Physical minimum",
          dictGet md "Digital maximum", dictGet md "Digital minimum" with
    | some pmax, some pmin, some dmax, some dmin =>
        match scalerInit (.str pmax) (.str pmin) (.str dmax) (.str dmin) with
        | .ok sc => .ok { sig with metadata := md, scaler := some sc }
        | .error e => .error e
    | _, _, _, _ => .error .keyError
  else .ok { sig with metadata := md }

/-- `Signal.is_numerical`: truthiness of the stripped `Transducer Type` or
the stripped `Physical dimension` (`KeyError` when either is missing). -/
def Signal.isNumerical (sig : Signal) : Except PyErr Bool :=
  match dictGet sig.metadata "Transducer Type" with
  | none => .error .keyError
  | some t =>
      match dictGet sig.metadata "Physical dimension" with
      | none => .error .keyError
      | some p => .ok (!(pyStripList t.toList).isEmpty || !(pyStripList p.toList).isEmpty)

/-- `Signal.number_samples_per_record`: `int(metadata.get('Samples', 0))`;
a set but unparseable value raises `ValueError`. -/
def Signal.numberSamplesPerRecord (sig : Signal) : Except PyErr ℤ :=
  match dictGet sig.metadata "Samples" with
  | none => .ok 0
  | some v =>
      match pyIntOfString v with
      | some n => .ok n
      | none => .error .valueError

/-- `Signal.add_samples_for_one_record`: append one record. -/
def Signal.addSamplesForOneRecord (sig : Signal) (r : List ℤ) : Signal :=
  { sig with samples := sig.samples ++ [r] }

/-- `Signal.number_records`. -/
def Signal.numberRecords (sig : Signal) : ℕ := sig.samples.length

/-- Substitution step of `format_samples`: replace the `UNDEFINED` sentinel
by the marker when a truthy marker was supplied. -/
def substUndefined (marker : Option PyVal) (x : ℤ) : PyVal :=
  match marker with
  | some m => if pyTruthy m = true ∧ x = UNDEFINED then m else .int x
  | none => .int x

/-- The hex-encoding step of `format_samples` applied to one (possibly
substituted) value: `numerical_to_hex_string(x, 16)` needs an integer;
a substituted string or `None` marker raises `TypeError`, a float too. -/
def hexStep (v : PyVal) : Except PyErr PyVal :=
  match v with
  | .int n => .ok (.str (numericalToHexString n 16))
  | _ => .error .typeError

/-- Effectful map over a list, forcing elements left to right the way
`list(...)` forces a lazy `map` chain: the first exception propagates. -/
def exceptMapM {α β : Type} (f : α → Except PyErr β) : List α → Except PyErr (List β)
  | [] => .ok []
  | a :: l => do
      let b ← f a
      let bs ← exceptMapM f l
      .ok (b :: bs)

/-- `Signal.format_samples`: early return of the raw records when `scale`
is false and no truthy marker is given, otherwise the per-record,
per-element pipeline (substitute, then hex-encode or scale or pass). -/
def Signal.formatSamples (sig : Signal) (scale : Bool) (marker : Option PyVal) :
    Except PyErr (List (List PyVal)) :=
  let mTruthy : Bool := match marker with | some m => pyTruthy m | none => false
  if scale = false ∧ mTruthy = false then
    .ok (sig.samples.map (fun r => r.map PyVal.int))
  else
    exceptMapM (fun r => do
      let numerical ← sig.isNumerical
      if numerical = false then
        exceptMapM (fun x => hexStep (substUndefined marker x)) r
      else if scale then
        match sig.scaler with
        | none => .error .attributeError
        | some sc => exceptMapM (fun x => scalerScale sc (substUndefined marker x)) r
      else .ok (r.map (substUndefined marker))) sig.samples

/-- The parsed top-level header; the four numeric fields hold the result of
`string_to_numerical`, the rest the raw text. -/
structure EdfHeader where
  version : String
  patient : String
  recordId : String
  startDate : String
  startTime : String
  headerSize : ℚ
  reserved : String
  numberRecords : ℚ
  recordDuration : ℚ
  numberSignals : ℚ
  deriving DecidableEq, Repr

/-- The ten header field byte widths, in file order. -/
def EdfHeader.fieldsSizes : List ℕ := [8, 80, 80, 8, 8, 8, 44, 8, 8, 4]

/-- `EdfHeader.parse`: raises unless the input is exactly 256 bytes, then
splits at the fixed widths (offsets are the partial sums of
`fieldsSizes`) and converts the four numeric fields with the fallback
rule; no other validation happens. -/
def edfHeaderParse (header : List ℕ) : Except PyErr EdfHeader :=
  if header.length ≠ EdfHeader.fieldsSizes.sum then .error .exception
  else .ok {
    version := byteArrayToString (natSlice header 0 8)
    patient := byteArrayToString (natSlice header 8 80)
    recordId := byteArrayToString (natSlice header 88 80)
    startDate := byteArrayToString (natSlice header 168 8)
    startTime := byteArrayToString (natSlice header 176 8)
    headerSize := stringToNumerical (byteArrayToString (natSlice header 184 8))
    reserved := byteArrayToString (natSlice header 192 44)
    numberRecords := stringToNumerical (byteArrayToString (natSlice header 236 8))
    recordDuration := stringToNumerical (byteArrayToString (natSlice header 244 8))
    numberSignals := stringToNumerical (byteArrayToString (natSlice header 252 4)) }

example : pyIntOfString "  42 " = some 42 := by decide
example : pyIntOfString "4.0" = none := by decide
set_option maxRecDepth 100000

example : pyFloatOfString " -100.00 " = some (-100) := by with_unfolding_all rfl
example : pyFloatOfString "abc" = none := by with_unfolding_all rfl
example : stringToNumerical "xyz" = -32768 := by with_unfolding_all rfl
example : numericalToHexString 255 16 = "0xff" := by decide
example : numericalToHexString (-1) 16 = "0xffff" := by decide
example : mathIsclose (-1) 0 = false := by with_unfolding_all rfl
example : mathIsclose 0 0 = true := by with_unfolding_all rfl
example : pyTrunc (3600 / (-1 : ℚ)) = -3600 := by with_unfolding_all rfl
example : pyTrunc (3600 / (7200 : ℚ)) = 0 := by with_unfolding_all rfl

/-! ## The EdfRecording streaming state machine -/

/-- The parsing stages of `EdfRecording` (`PARSER_STREAM_STAGES`). -/
inductive Stage where
  | opened
  | header
  | metadata
  | parsing
  | done
  deriving DecidableEq, Repr

/-- The mutable state of an `EdfRecording` over an in-memory byte source
(`binary_content`).  Fields that Python initialises to `None` are held
at defaults here; the state machine writes them before any later stage
reads them. -/
structure EdfState where
  binaryContent : List ℕ
  status : Stage
  header : EdfHeader
  numberSignals : ℤ
  numberRecords : ℤ
  signalHeaderSize : ℤ
  samplesPerRecord : ℤ
  recordSize : ℤ
  signals : List Signal
  deriving DecidableEq, Repr

/-- `EdfRecording.__extract__` on the in-memory source: return up to
`count` bytes (`binary_content[:count]`) and keep the rest. -/
def extract (st : EdfState) (count : ℤ) : List ℕ × EdfState :=
  if st.binaryContent.isEmpty then ([], st)
  else (pyTake st.binaryContent count,
        { st with binaryContent := pyDrop st.binaryContent count })

/-- `for s, m in zip(signals, metadata): s.set_metadata(l, m)` — signals
beyond the chunk list are left untouched (zip truncates). -/
def setMetadataAll (l : String) : List Signal → List String → Except PyErr (List Signal)
  | ss, [] => .ok ss
  | [], _ => .ok []
  | s :: ss, m :: ms => do
      let s' ← s.setMetadata l m
      let ss' ← setMetadataAll l ss ms
      .ok (s' :: ss')

/-- One field step of `__parse_metadata__`: slice
`header_bytes[start:start + field_size * number_signals]`, unpack it into
`number_signals` fixed-width chunks (`struct.error` unless the slice length
matches), decode each chunk to text and hand chunk `i` to descriptor `i`,
then continue with the next field at the updated offset. -/
def parseMetadataFields (ns : ℤ) (headerBytes : List ℕ) :
    List (String × ℕ) → ℤ → List Signal → Except PyErr (List Signal)
  | [], _, sigs => .ok sigs
  | (name, w) :: rest, start, sigs => do
      let chunkBytes := pySlice headerBytes start (start + (w : ℤ) * ns)
      if chunkBytes.length = w * ns.toNat then do
        let chunks := (List.range ns.toNat).map
          (fun i => byteArrayToString (natSlice chunkBytes (i * w) w))
        let sigs' ← setMetadataAll name sigs chunks
        parseMetadataFields ns headerBytes rest (start + (w : ℤ) * ns) sigs'
      else .error .structError

/-- Sum of `int(s.number_samples_per_record())` over the signals, with the
first `ValueError` propagating. -/
def sumSamplesPerRecord : List Signal → Except PyErr ℤ
  | [] => .ok 0
  | s :: ss => do
      let c ← s.numberSamplesPerRecord
      let rest ← sumSamplesPerRecord ss
      .ok (c + rest)

/-- `EdfRecording.__parse_metadata__`: the ten fields in column-major
order, then the per-record sample total across the signals. -/
def parseMetadata (ns : ℤ) (sigs : List Signal) (headerBytes : List ℕ) :
    Except PyErr (List Signal × ℤ) := do
  let sigs' ← parseMetadataFields ns headerBytes
    (SIGNAL_HEADER_FIELDS.zip SIGNAL_HEADER_FIELDS_SIZE) 0 sigs
  let spr ← sumSamplesPerRecord sigs'
  .ok (sigs', spr)

/-- One little-endian signed 16-bit value from two bytes (the native
byte order of the deployment platform for `struct` format `h`). -/
def decodeInt16LE (b0 b1 : ℕ) : ℤ :=
  let u : ℕ := b0 % 256 + 256 * (b1 % 256)
  if u < 32768 then (u : ℤ) else (u : ℤ) - 65536

/-- `struct.unpack("h h ... h", bytes)`: consecutive byte pairs decoded as
signed 16-bit values. -/
def decodeInt16Pairs : List ℕ → List ℤ
  | b0 :: b1 :: rest => decodeInt16LE b0 b1 :: decodeInt16Pairs rest
  | _ => []

/-- The distribution loop of `__parse_one_record__`: each signal receives
`data[start:start + count]` and the offset advances by its count. -/
def distributeRecord (data : List ℤ) : ℤ → List Signal → Except PyErr (List Signal)
  | _, [] => .ok []
  | start, s :: ss => do
      let c ← s.numberSamplesPerRecord
      let s' := s.addSamplesForOneRecord (pySlice data start (start + c))
      let ss' ← distributeRecord data (start + c) ss
      .ok (s' :: ss')

/-- `EdfRecording.__parse_one_record__`: skip an empty (falsy) block,
otherwise unpack `samples_per_record` 16-bit values (`struct.error` unless
the byte count matches exactly) and distribute contiguous slices to the
signals in channel order. -/
def parseOneRecord (spr : ℤ) (sigs : List Signal) (sample : List ℕ) :
    Except PyErr (List Signal) :=
  if sample.isEmpty then .ok sigs
  else if sample.length = 2 * spr.toNat then
    distributeRecord (decodeInt16Pairs sample) 0 sigs
  else .error .structError

/-- Number of record blocks one `stream` call will try to consume: 1 when
the header's record duration is numerically zero, else the truncated
quotient of the requested duration by the record duration, else (no or
falsy duration argument) the record byte size itself. -/
def recordsToRead (st : EdfState) (duration : Option ℚ) : ℤ :=
  if mathIsclose st.header.recordDuration 0 then 1
  else
    match duration with
    | none => st.recordSize
    | some d => if d = 0 then st.recordSize else pyTrunc (d / st.header.recordDuration)

/-- The record-consumption loop of `stream`: extract `record_size` bytes;
a non-empty extract is decoded (errors propagate), an empty one sets the
stage to `done`; the loop itself never breaks early. -/
def parseLoop : ℕ → EdfState → Except PyErr EdfState
  | 0, st => .ok st
  | n + 1, st =>
      let (bytesExtracted, st1) := extract st st.recordSize
      if bytesExtracted.isEmpty then parseLoop n { st1 with status := .done }
      else
        match parseOneRecord st1.samplesPerRecord st1.signals bytesExtracted with
        | .error e => .error e
        | .ok sigs => parseLoop n { st1 with signals := sigs }

/-- `EdfRecording.stream(duration)`: the four-branch state machine step. -/
def stream (st : EdfState) (duration : Option ℚ) : Except PyErr EdfState :=
  match st.status with
  | .opened =>
      let (hbytes, st1) := extract st (EdfHeader.fieldsSizes.sum : ℤ)
      match edfHeaderParse hbytes with
      | .error e => .error e
      | .ok hdr =>
          let ns := pyTrunc hdr.numberSignals
          let nr := pyTrunc hdr.numberRecords
          .ok { st1 with
                status := .header, header := hdr,
                numberSignals := ns, numberRecords := nr,
                signalHeaderSize := ns * (SIGNAL_HEADER_FIELDS_SIZE.sum : ℤ),
                samplesPerRecord := 0, recordSize := 0,
                signals := List.replicate ns.toNat Signal.init }
  | .header =>
      let (mbytes, st1) := extract st st.signalHeaderSize
      match parseMetadata st.numberSignals st.signals mbytes with
      | .error e => .error e
      | .ok (sigs, spr) =>
          .ok { st1 with
                status := .metadata, signals := sigs,
                samplesPerRecord := spr, recordSize := 2 * spr }
  | .metadata => parseLoop (recordsToRead st duration).toNat { st with status := .parsing }
  | .parsing => parseLoop (recordsToRead st duration).toNat { st with status := .parsing }
  | .done => .ok st

/-- `EdfRecording.DEFAULT_DURATION_IN_SECONDS`. -/
def DEFAULT_DURATION_IN_SECONDS : ℚ := 3600

/-- The state set up by `parse_binary(blob)` before its loop. -/
def initState (blob : List ℕ) : EdfState :=
  { binaryContent := blob, status := .opened,
    header := { version := "", patient := "", recordId := "", startDate := "",
                startTime := "", headerSize := 0, reserved := "",
                numberRecords := 0, recordDuration := 0, numberSignals := 0 },
    numberSignals := 0, numberRecords := 0, signalHeaderSize := 0,
    samplesPerRecord := 0, recordSize := 0, signals := [] }

/-- `n` iterations of the `parse_binary` loop body
(`while status != DONE: stream(duration=DEFAULT_DURATION_IN_SECONDS)`),
stopping once the stage is `done`. -/
def streamIter : ℕ → EdfState → Except PyErr EdfState
  | 0, st => .ok st
  | n + 1, st =>
      if st.status = .done then .ok st
      else
        match stream st (some DEFAULT_DURATION_IN_SECONDS) with
        | .error e => .error e
        | .ok st' => streamIter n st'

/-- `parse_binary(blob)` terminates: its loop reaches the `done` stage
after finitely many `stream` calls. -/
def parseAllReachesDone (blob : List ℕ) : Prop :=
  ∃ n st', streamIter n (initState blob) = .ok st' ∧ st'.status = .done

/-- A sequence of `stream` calls with the given duration arguments. -/
def runStreamCalls (ds : List (Option ℚ)) (st : EdfState) : Except PyErr EdfState :=
  match ds with
  | [] => .ok st
  | d :: rest =>
      match stream st d with
      | .error e => .error e
      | .ok st' => runStreamCalls rest st'

/-! ## Concrete byte blobs used by witnesses and counterexamples -/

/-- ASCII bytes of a text literal. -/
def strBytes (s : String) : List ℕ := s.toList.map Char.toNat

/-- A fixed-width ASCII field: the text, space-padded to `w` bytes. -/
def mkField (s : String) (w : ℕ) : List ℕ :=
  (strBytes s ++ List.replicate (w - s.length) 32).take w

/-- A 256-byte top-level header with the given numeric field texts. -/
def mkHeaderBlob (headerSize nRecords rDuration nSignals : String) : List ℕ :=
  mkField "0" 8 ++ mkField "patient" 80 ++ mkField "recording" 80 ++
  mkField "01.01.01" 8 ++ mkField "00.00.00" 8 ++ mkField headerSize 8 ++
  mkField "" 44 ++ mkField nRecords 8 ++ mkField rDuration 8 ++ mkField nSignals 4

/-- A 256-byte signal-metadata block for a single signal. -/
def mkMetaBlobOne (label transducer dim pmin pmax dmin dmax prefilter samples reserved : String) :
    List ℕ :=
  mkField label 16 ++ mkField transducer 80 ++ mkField dim 8 ++ mkField pmin 8 ++
  mkField pmax 8 ++ mkField dmin 8 ++ mkField dmax 8 ++ mkField prefilter 80 ++
  mkField samples 8 ++ mkField reserved 32

example : (mkHeaderBlob "512" "1" "-1" "0").length = 256 := by decide
example : (mkMetaBlobOne "EEG" "AgCl" "uV" "-100.00" "100.00" "-32768" "32767" "" "1" "").length = 256 := by decide
example : (edfHeaderParse (mkHeaderBlob "512" "1" "-1" "0")).map EdfHeader.recordDuration = .ok (-1) := by
  with_unfolding_all rfl
example : (edfHeaderParse (mkHeaderBlob "512" "1" "-1" "0")).map EdfHeader.numberSignals = .ok 0 := by
  with_unfolding_all rfl

/-! ## Shared helper lemmas -/

theorem natSlice_length {α : Type} (l : List α) (a m : ℕ) (h : a + m ≤ l.length) :
    (natSlice l a m).length = m := by
  simp [natSlice, List.length_take, List.length_drop]
  omega

theorem pyBound_ofNat (n : ℕ) (i : ℕ) : pyBound n (i : ℤ) = min i n := by
  simp [pyBound]

theorem pySlice_eq_natSlice {α : Type} (l : List α) (a m : ℕ)
    (h : a + m ≤ l.length) :
    pySlice l (a : ℤ) ((a : ℤ) + (m : ℤ)) = natSlice l a m := by
  have h1 : pyBound l.length (a : ℤ) = a := by
    rw [pyBound_ofNat]; omega
  have h2 : pyBound l.length ((a : ℤ) + (m : ℤ)) = a + m := by
    have : ((a : ℤ) + (m : ℤ)) = ((a + m : ℕ) : ℤ) := by push_cast; ring
    rw [this, pyBound_ofNat]; omega
  simp [pySlice, h1, h2, natSlice]

theorem pyTake_eq_take {α : Type} (l : List α) (b : ℤ) (hb : 0 ≤ b) :
    pyTake l b = l.take b.toNat := by
  have h0 : pyBound l.length 0 = 0 := by simp [pyBound]
  have h1 : pyBound l.length b = min b.toNat l.length := by
    simp [pyBound]; omega
  rw [pyTake, pySlice, h0, h1]
  simp only [List.drop_zero, Nat.sub_zero]
  rcases Nat.le_total b.toNat l.length with h | h
  · rw [Nat.min_eq_left h]
  · rw [Nat.min_eq_right h, List.take_of_length_le le_rfl, List.take_of_length_le h]

theorem pyDrop_eq_drop {α : Type} (l : List α) (a : ℤ) (ha : 0 ≤ a) :
    pyDrop l a = l.drop a.toNat := by
  have h1 : pyBound l.length a = min a.toNat l.length := by
    simp [pyBound]; omega
  rw [pyDrop, h1]
  rcases Nat.le_total a.toNat l.length with h | h
  · rw [Nat.min_eq_left h]
  · rw [Nat.min_eq_right h, List.drop_eq_nil_of_le le_rfl, List.drop_eq_nil_of_le h]

/-! ## Claim C9 — header parsing -/

/-- C9: `HeaderRecord.parse` fails exactly when the input is not 256 bytes
long; on any 256-byte input it returns normally, splitting the buffer into
the ten fields of widths 8, 80, 80, 8, 8, 8, 44, 8, 8, 4 at the
corresponding offsets, with no further validation, and any numeric field
whose text parses neither as an int nor as a float becomes the -32768
sentinel instead of aborting. -/
theorem c9_header_parse_total (bytes : List ℕ) :
    ((∃ h, edfHeaderParse bytes = .ok h) ↔ bytes.length = 256) ∧
    (bytes.length = 256 →
      edfHeaderParse bytes = .ok {
        version := byteArrayToString (natSlice bytes 0 8)
        patient := byteArrayToString (natSlice bytes 8 80)
        recordId := byteArrayToString (natSlice bytes 88 80)
        startDate := byteArrayToString (natSlice bytes 168 8)
        startTime := byteArrayToString (natSlice bytes 176 8)
        headerSize := stringToNumerical (byteArrayToString (natSlice bytes 184 8))
        reserved := byteArrayToString (natSlice bytes 192 44)
        numberRecords := stringToNumerical (byteArrayToString (natSlice bytes 236 8))
        recordDuration := stringToNumerical (byteArrayToString (natSlice bytes 244 8))
        numberSignals := stringToNumerical (byteArrayToString (natSlice bytes 252 4)) }) ∧
    (∀ s : String, pyIntOfString (String.mk (pyStripList s.toList)) = none →
      pyFloatOfString s = none → stringToNumerical s = -32768) := by
  have hsum : EdfHeader.fieldsSizes.sum = 256 := by decide
  have hok : bytes.length = 256 →
      edfHeaderParse bytes = .ok {
        version := byteArrayToString (natSlice bytes 0 8)
        patient := byteArrayToString (natSlice bytes 8 80)
        recordId := byteArrayToString (natSlice bytes 88 80)
        startDate := byteArrayToString (natSlice bytes 168 8)
        startTime := byteArrayToString (natSlice bytes 176 8)
        headerSize := stringToNumerical (byteArrayToString (natSlice bytes 184 8))
        reserved := byteArrayToString (natSlice bytes 192 44)
        numberRecords := stringToNumerical (byteArrayToString (natSlice bytes 236 8))
        recordDuration := stringToNumerical (byteArrayToString (natSlice bytes 244 8))
        numberSignals := stringToNumerical (byteArrayToString (natSlice bytes 252 4)) } := by
    intro hlen
    rw [edfHeaderParse, hsum, if_neg (by omega)]
  refine ⟨?_, hok, ?_⟩
  · constructor
    · rintro ⟨h, hh⟩
      by_contra hne
      simp [edfHeaderParse, hsum, hne] at hh
    · intro hlen
      exact ⟨_, hok hlen⟩
  · intro s h1 h2
    simp only [stringToNumerical, String.toList] at h1 ⊢
    rw [h1, h2]
    simp [UNDEFINED]

/-- Witness for C9: a concrete 256-byte header; the negative record count
passes through, the blank duration becomes the sentinel. -/
theorem c9_header_parse_total_witness :
    (∃ h, edfHeaderParse (mkHeaderBlob "512" "-5" " " "2") = .ok h) ∧
    (edfHeaderParse (mkHeaderBlob "512" "-5" " " "2")).map EdfHeader.numberRecords
      = .ok (-5) ∧
    (edfHeaderParse (mkHeaderBlob "512" "-5" " " "2")).map EdfHeader.recordDuration
      = .ok (-32768) := by
  refine ⟨(c9_header_parse_total (mkHeaderBlob "512" "-5" " " "2")).1.mpr (by decide),
    ?_, ?_⟩
  · with_unfolding_all rfl
  · with_unfolding_all rfl

/-! ## Claim C5 — Scaler construction and identity behaviour -/

/-- C5 (amended): Scaler construction succeeds when all four bounds
convert with `float()` (numbers or numeric strings), yielding the deltas
of the linear transform; a `None` first bound raises `TypeError`, which is
caught and leaves the fields unset; `scale` on an unset scaler raises
`TypeError` for every input (rather than being the identity); and `scale`
is the identity whenever `deltaD` is zero. -/
theorem c5_scaler_amended :
    (∀ b1 b2 b3 b4 q1 q2 q3 q4,
        pyFloatConv b1 = .ok q1 → pyFloatConv b2 = .ok q2 →
        pyFloatConv b3 = .ok q3 → pyFloatConv b4 = .ok q4 →
        scalerInit b1 b2 b3 b4 = .ok (.bounds (q1 - q2) (q3 - q4) q2 q4)) ∧
    (∀ b2 b3 b4, scalerInit .pynone b2 b3 b4 = .ok .unset) ∧
    (∀ v, scalerScale .unset v = .error .typeError) ∧
    (∀ pD pMin dMin v, scalerScale (.bounds pD 0 pMin dMin) v = .ok v) := by
  refine ⟨?_, ?_, ?_, ?_⟩
  · intro b1 b2 b3 b4 q1 q2 q3 q4 h1 h2 h3 h4
    simp [scalerInit, h1, h2, h3, h4]
  · intro b2 b3 b4
    simp [scalerInit, pyFloatConv]
  · intro v
    simp [scalerScale]
  · intro pD pMin dMin v
    simp [scalerScale]

/-- Counterexample for C5 as stated: a bound that fails to parse as a
number makes construction raise `ValueError` (the code catches only
`TypeError`), instead of constructing with unset fields. -/
theorem c5_scaler_counterexample :
    scalerInit (.str "abc") (.str "0") (.str "1") (.str "0") = .error .valueError := by
  with_unfolding_all rfl

/-- Witness for C5 (amended): the bounds of the repository's own unit
test, plus the zero-delta identity and the unset-scaler TypeError. -/
theorem c5_scaler_amended_witness :
    scalerInit (.str "100.00  ") (.str "-100.00 ") (.str "32767   ") (.str "32767  ")
      = .ok (.bounds (100 - -100) (32767 - 32767) (-100) 32767) ∧
    scalerScale (.bounds 1 0 0 5) (.int 550) = .ok (.int 550) ∧
    scalerScale .unset (.int 550) = .error .typeError ∧
    scalerInit .pynone (.str "1") (.str "2") (.str "3") = .ok .unset := by
  refine ⟨?_, ?_, ?_, ?_⟩
  · exact c5_scaler_amended.1 _ _ _ _ _ _ _ _
      (by with_unfolding_all rfl) (by with_unfolding_all rfl)
      (by with_unfolding_all rfl) (by with_unfolding_all rfl)
  · exact c5_scaler_amended.2.2.2 1 0 5 (.int 550)
  · exact c5_scaler_amended.2.2.1 (.int 550)
  · exact c5_scaler_amended.2.1 (.str "1") (.str "2") (.str "3")

/-! ## Claims C6, C7 — the sample formatting pipeline -/

theorem except_bind_ok {ε α β : Type} (a : α) (f : α → Except ε β) :
    ((Except.ok a : Except ε α) >>= f) = f a := rfl

theorem except_bind_error {ε α β : Type} (e : ε) (f : α → Except ε β) :
    ((Except.error e : Except ε α) >>= f) = .error e := rfl

theorem exceptMapM_error_of_mem {α β : Type} (f : α → Except PyErr β) :
    ∀ (l : List α) (x : α), x ∈ l → f x = .error .typeError →
      (∀ y ∈ l, f y = .error .typeError ∨ ∃ b, f y = .ok b) →
      exceptMapM f l = .error .typeError
  | a :: l, x, hx, hfx, hall => by
    rcases hall a (by simp) with ha | ⟨b, hb⟩
    · simp [exceptMapM, ha, except_bind_error]
    · have hxl : x ∈ l := by
        rcases List.mem_cons.mp hx with rfl | h
        · rw [hfx] at hb; cases hb
        · exact h
      have := exceptMapM_error_of_mem f l x hxl hfx (fun y hy => hall y (by simp [hy]))
      simp [exceptMapM, hb, this, except_bind_ok, except_bind_error]

theorem exceptMapM_ok_of_forall {α β : Type} (f : α → Except PyErr β) (g : α → β) :
    ∀ l : List α, (∀ x ∈ l, f x = .ok (g x)) → exceptMapM f l = .ok (l.map g)
  | [], _ => by simp [exceptMapM]
  | a :: l, h => by
    have ha := h a (by simp)
    have hl := exceptMapM_ok_of_forall f g l (fun x hx => h x (by simp [hx]))
    simp [exceptMapM, ha, hl, except_bind_ok]

theorem substUndefined_str (m : String) (hm : m ≠ "") (x : ℤ) :
    substUndefined (some (.str m)) x = if x = UNDEFINED then .str m else .int x := by
  simp [substUndefined, pyTruthy, hm]

theorem exceptMapM_hex_subst_error (m : String) (hm : m ≠ "") :
    ∀ r : List ℤ, UNDEFINED ∈ r →
      exceptMapM (fun x => hexStep (substUndefined (some (.str m)) x)) r = .error .typeError
  | a :: r, hmem => by
    rcases eq_or_ne a UNDEFINED with rfl | hne
    · simp [exceptMapM, substUndefined_str m hm, hexStep, except_bind_error]
    · have hr : UNDEFINED ∈ r := by
        rcases List.mem_cons.mp hmem with h | h
        · exact absurd h.symm hne
        · exact h
      have ht := exceptMapM_hex_subst_error m hm r hr
      simp only [substUndefined_str m hm, hexStep] at ht
      simp [exceptMapM, substUndefined_str m hm, hne, hexStep, ht,
        except_bind_ok, except_bind_error]

theorem exceptMapM_hex_subst_ok (m : String) (hm : m ≠ "") (r : List ℤ)
    (hmem : UNDEFINED ∉ r) :
    exceptMapM (fun x => hexStep (substUndefined (some (.str m)) x)) r =
      .ok (r.map (fun x => .str (numericalToHexString x 16))) := by
  refine exceptMapM_ok_of_forall _ _ r (fun x hx => ?_)
  have hne : x ≠ UNDEFINED := fun h => hmem (h ▸ hx)
  simp [substUndefined_str m hm, hne, hexStep]

/-- C7 (amended): a descriptor whose trimmed transducer type and trimmed
physical dimension are both empty is classified non-numerical, and
`formatSamples` (with scaling requested and no marker) renders every raw
sample as the Python `hex()` string of its two's-complement 16-bit value —
`0x` followed by the minimal run of lowercase hex digits, not zero-padded —
and never applies the Scaler (the output is independent of the scaler and
is fully determined by the raw samples). -/
theorem c7_nonnumerical_hex_amended (sig : Signal) (t p : String)
    (ht : dictGet sig.metadata "Transducer Type" = some t)
    (hp : dictGet sig.metadata "Physical dimension" = some p)
    (ht0 : (pyStripList t.toList).isEmpty = true)
    (hp0 : (pyStripList p.toList).isEmpty = true) :
    sig.isNumerical = .ok false ∧
    sig.formatSamples true none =
      .ok (sig.samples.map (fun r =>
        r.map (fun x => PyVal.str (numericalToHexString x 16)))) := by
  have ht1 : pyStripList t.data = [] := by
    simpa [String.toList, List.isEmpty_iff] using ht0
  have hp1 : pyStripList p.data = [] := by
    simpa [String.toList, List.isEmpty_iff] using hp0
  have hnum : sig.isNumerical = .ok false := by
    simp [Signal.isNumerical, ht, hp, ht1, hp1]
  refine ⟨hnum, ?_⟩
  rw [Signal.formatSamples]
  simp only [Bool.true_eq_false, false_and, if_false]
  refine exceptMapM_ok_of_forall _ _ sig.samples (fun r hr => ?_)
  rw [hnum, except_bind_ok]
  simp only [if_pos rfl]
  refine exceptMapM_ok_of_forall _ _ r (fun x hx => ?_)
  simp [substUndefined, hexStep]

/-- Counterexample for C7 as stated: the raw sample 1 of a non-numerical
channel is rendered as "0x1" — Python's `hex()` output — which is not a
zero-padded four-hex-digit string. -/
theorem c7_nonnumerical_hex_counterexample :
    Signal.formatSamples
      ⟨[("Label", "ann"), ("Transducer Type", " "), ("Physical dimension", "")],
       [[1]], none⟩ true none = .ok [[.str "0x1"]] ∧
    ("0x1" : String).length ≠ ("0x0001" : String).length := by
  constructor
  · with_unfolding_all rfl
  · decide

/-- Witness for C7 (amended): concrete non-numerical descriptor; samples
1 and -2 come out as "0x1" and "0xfffe", untouched by the scaler. -/
theorem c7_nonnumerical_hex_amended_witness :
    Signal.isNumerical
      ⟨[("Transducer Type", "  "), ("Physical dimension", " ")],
       [[1, -2]], some (.bounds 200 65535 (-100) (-32768))⟩ = .ok false ∧
    Signal.formatSamples
      ⟨[("Transducer Type", "  "), ("Physical dimension", " ")],
       [[1, -2]], some (.bounds 200 65535 (-100) (-32768))⟩ true none
      = .ok [[.str "0x1", .str "0xfffe"]] := by
  have h := c7_nonnumerical_hex_amended
    ⟨[("Transducer Type", "  "), ("Physical dimension", " ")],
     [[1, -2]], some (.bounds 200 65535 (-100) (-32768))⟩ "  " " "
    (by with_unfolding_all rfl) (by with_unfolding_all rfl) (by decide) (by decide)
  refine ⟨h.1, ?_⟩
  rw [h.2]
  with_unfolding_all rfl

/-- C6 (amended): the undefined-marker substitution does run before the
hex/scale conversion, and therefore a substituted marker IS fed into the
later steps rather than being protected from them: with a truthy string
marker, (a) for a numerical descriptor with `scale = false` the call
returns the records with every -32768 replaced by the marker, unchanged;
(b) for a non-numerical descriptor, any record containing the -32768
sentinel makes the call raise `TypeError`, because the substituted marker
string reaches the hex-encoding step. -/
theorem c6_marker_substitution_amended :
    (∀ (sig : Signal) (m : String), m ≠ "" →
      sig.isNumerical = .ok true →
      sig.formatSamples false (some (.str m)) =
        .ok (sig.samples.map (fun r =>
          r.map (fun x => if x = UNDEFINED then PyVal.str m else .int x)))) ∧
    (∀ (sig : Signal) (m : String), m ≠ "" →
      sig.isNumerical = .ok false →
      (∃ r ∈ sig.samples, UNDEFINED ∈ r) →
      sig.formatSamples true (some (.str m)) = .error .typeError) := by
  constructor
  · intro sig m hm hnum
    rw [Signal.formatSamples]
    have hmt : pyTruthy (.str m) = true := by simp [pyTruthy, hm]
    simp only [hmt, and_false, if_false]
    refine exceptMapM_ok_of_forall _ _ sig.samples (fun r hr => ?_)
    rw [hnum, except_bind_ok]
    simp only [Bool.true_eq_false, if_false, Bool.false_eq_true]
    have : ∀ x : ℤ, substUndefined (some (.str m)) x =
        if x = UNDEFINED then PyVal.str m else .int x := substUndefined_str m hm
    simp [this]
  · intro sig m hm hnum hmem
    rw [Signal.formatSamples]
    have hmt : pyTruthy (.str m) = true := by simp [pyTruthy, hm]
    simp only [hmt, and_false, if_false]
    obtain ⟨r0, hr0, hu0⟩ := hmem
    refine exceptMapM_error_of_mem _ _ r0 hr0 ?_ ?_
    · rw [hnum, except_bind_ok]
      simp only [if_pos rfl]
      exact exceptMapM_hex_subst_error m hm r0 hu0
    · intro r hr
      rw [hnum, except_bind_ok]
      simp only [if_pos rfl]
      by_cases hu : UNDEFINED ∈ r
      · exact Or.inl (exceptMapM_hex_subst_error m hm r hu)
      · exact Or.inr ⟨_, exceptMapM_hex_subst_ok m hm r hu⟩

/-- Counterexample for C6 as stated: a non-numerical descriptor with one
record holding the -32768 sentinel and the marker "*": the substituted
marker is fed into the hex-encoding step and the call raises `TypeError`
instead of returning normally with the marker unchanged. -/
theorem c6_marker_substitution_counterexample :
    Signal.formatSamples
      ⟨[("Transducer Type", ""), ("Physical dimension", "")],
       [[-32768]], none⟩ true (some (.str "*")) = .error .typeError := by
  with_unfolding_all rfl

/-- Witness for C6 (amended): both branches at concrete inputs — a
numerical descriptor with `scale = false` keeps the marker unchanged, a
non-numerical one with a sentinel raises `TypeError`. -/
theorem c6_marker_substitution_amended_witness :
    Signal.formatSamples
      ⟨[("Transducer Type", "AgCl"), ("Physical dimension", "uV")],
       [[-32768, 7]], none⟩ false (some (.str "*"))
      = .ok [[.str "*", .int 7]] ∧
    Signal.formatSamples
      ⟨[("Transducer Type", " "), ("Physical dimension", "")],
       [[3, -32768]], none⟩ true (some (.str "*")) = .error .typeError := by
  constructor
  · have h := c6_marker_substitution_amended.1
      ⟨[("Transducer Type", "AgCl"), ("Physical dimension", "uV")],
       [[-32768, 7]], none⟩ "*" (by decide) (by with_unfolding_all rfl)
    rw [h]
    with_unfolding_all rfl
  · exact c6_marker_substitution_amended.2
      ⟨[("Transducer Type", " "), ("Physical dimension", "")],
       [[3, -32768]], none⟩ "*" (by decide) (by with_unfolding_all rfl)
      ⟨[3, -32768], by simp, by simp [UNDEFINED]⟩

/-! ## Claim C1 — record distribution -/

theorem natSlice_append {α : Type} (data : List α) (k c m : ℕ) :
    natSlice data k c ++ natSlice data (k + c) m = natSlice data k (c + m) := by
  simp only [natSlice]
  rw [List.take_add, ← List.drop_drop]

theorem decodeInt16Pairs_length : ∀ l : List ℕ, (decodeInt16Pairs l).length = l.length / 2
  | [] => by simp [decodeInt16Pairs]
  | [_] => by simp [decodeInt16Pairs]
  | b0 :: b1 :: rest => by
    have := decodeInt16Pairs_length rest
    simp [decodeInt16Pairs, this]
    omega

theorem distributeRecord_spec :
    ∀ (sigs : List Signal) (cs : List ℕ),
      List.Forall₂ (fun (s : Signal) (c : ℕ) => s.numberSamplesPerRecord = .ok (c : ℤ))
        sigs cs →
      ∀ (data : List ℤ) (k : ℕ), k + cs.sum ≤ data.length →
      ∃ recs : List (List ℤ),
        recs.length = sigs.length ∧
        List.Forall₂ (fun (r : List ℤ) (c : ℕ) => r.length = c) recs cs ∧
        recs.flatten = natSlice data k cs.sum ∧
        distributeRecord data (k : ℤ) sigs =
          .ok (List.zipWith Signal.addSamplesForOneRecord sigs recs) := by
  intro sigs cs h
  induction h with
  | nil =>
      intro data k _
      exact ⟨[], rfl, .nil, by simp [natSlice], by simp [distributeRecord]⟩
  | @cons s c sigs cs h1 htl ih =>
      intro data k hk
      have hsum : k + (c + cs.sum) ≤ data.length := by simpa using hk
      have hkc : k + c ≤ data.length := by omega
      obtain ⟨recs, hlen, hfa, hjoin, hdist⟩ := ih data (k + c) (by omega)
      refine ⟨natSlice data k c :: recs, by simp [hlen], ?_, ?_, ?_⟩
      · exact .cons (natSlice_length data k c hkc) hfa
      · simp only [List.flatten_cons, hjoin, List.sum_cons]
        exact natSlice_append data k c cs.sum
      · have hslice : pySlice data (k : ℤ) ((k : ℤ) + (c : ℤ)) = natSlice data k c :=
          pySlice_eq_natSlice data k c hkc
        have hcast : ((k : ℤ) + (c : ℤ)) = ((k + c : ℕ) : ℤ) := by push_cast; ring
        rw [distributeRecord, h1, except_bind_ok, hslice, hcast, hdist]
        simp [List.zipWith, Signal.addSamplesForOneRecord, except_bind_ok]

/-- C1 (amended): for descriptors with per-record counts `cs` (each
descriptor's samples-field parsing to its count, `samplesPerRecord` equal
to their sum), decoding one NON-EMPTY record block of `2 × sum cs` bytes
(`sum cs` 16-bit integers) appends exactly one record to every descriptor:
descriptor `i` receives exactly `cs i` integers, the records are the
contiguous slices of the decoded flat sequence in channel order (their
concatenation is exactly the flat sequence — order preserved, nothing left
over, nothing delivered twice).  The non-emptiness proviso `0 < sum cs` is
forced by the falsy-bytes guard, see the counterexample. -/
theorem c1_record_distribution_amended (sigs : List Signal) (cs : List ℕ)
    (sample : List ℕ)
    (hcs : List.Forall₂
      (fun (s : Signal) (c : ℕ) => s.numberSamplesPerRecord = .ok (c : ℤ)) sigs cs)
    (hlen : sample.length = 2 * cs.sum) (hpos : 0 < cs.sum) :
    ∃ recs : List (List ℤ),
      recs.length = sigs.length ∧
      List.Forall₂ (fun (r : List ℤ) (c : ℕ) => r.length = c) recs cs ∧
      recs.flatten = decodeInt16Pairs sample ∧
      parseOneRecord (cs.sum : ℤ) sigs sample =
        .ok (List.zipWith Signal.addSamplesForOneRecord sigs recs) := by
  have hne : sample.isEmpty = false := by
    cases sample with
    | nil => simp at hlen; omega
    | cons a l => simp
  have hdlen : (decodeInt16Pairs sample).length = cs.sum := by
    rw [decodeInt16Pairs_length, hlen]
    omega
  obtain ⟨recs, h1, h2, h3, h4⟩ :=
    distributeRecord_spec sigs cs hcs (decodeInt16Pairs sample) 0 (by omega)
  refine ⟨recs, h1, h2, ?_, ?_⟩
  · rw [h3]
    simp only [natSlice, List.drop_zero]
    rw [← hdlen, List.take_length]
  · rw [parseOneRecord, hne]
    have : sample.length = 2 * ((cs.sum : ℤ)).toNat := by
      rw [hlen]
      omega
    simp only [Bool.false_eq_true, if_false, this, if_pos rfl]
    exact h4

/-- Counterexample for C1 as stated: with a single descriptor of
per-record count 0, the record block holds `sum ci = 0` integers, i.e. it
is empty; the falsy-bytes guard in `__parse_one_record__` then skips the
block entirely, so NO record is appended to the descriptor — the claim
demands exactly one (empty) record. -/
theorem c1_record_distribution_counterexample :
    ¬ ∃ sigs', parseOneRecord 0 [⟨[("Samples", "0")], [], none⟩] [] = .ok sigs' ∧
      ∃ s1, sigs' = [s1] ∧ s1.samples.length = 1 := by
  rintro ⟨sigs', heq, s1, rfl, hlen⟩
  have hval : parseOneRecord 0 [⟨[("Samples", "0")], [], none⟩] [] =
      .ok [⟨[("Samples", "0")], [], none⟩] := by with_unfolding_all rfl
  rw [hval] at heq
  injection heq with hlist
  injection hlist with hhead htail
  rw [← hhead] at hlen
  simp at hlen

/-- Witness for C1 (amended): two descriptors with counts 2 and 1 and the
flat block [1, 2, 3]: the first receives [1, 2], the second [3]. -/
theorem c1_record_distribution_amended_witness :
    ∃ recs : List (List ℤ),
      recs.length = 2 ∧
      List.Forall₂ (fun (r : List ℤ) (c : ℕ) => r.length = c) recs [2, 1] ∧
      recs.flatten = decodeInt16Pairs [1, 0, 2, 0, 3, 0] ∧
      parseOneRecord (([2, 1] : List ℕ).sum : ℤ)
        [⟨[("Samples", "2")], [], none⟩, ⟨[("Samples", "1")], [], none⟩]
        [1, 0, 2, 0, 3, 0] =
        .ok (List.zipWith Signal.addSamplesForOneRecord
          [⟨[("Samples", "2")], [], none⟩, ⟨[("Samples", "1")], [], none⟩] recs) := by
  exact c1_record_distribution_amended _ [2, 1] _
    (.cons (by with_unfolding_all rfl) (.cons (by with_unfolding_all rfl) .nil))
    (by decide) (by decide)

/-! ## Claims C3, C8 — exhaustion and zero-duration behaviour of stream -/

theorem mathIsclose_zero_iff (q : ℚ) : mathIsclose q 0 = true ↔ q = 0 := by
  simp only [mathIsclose, decide_eq_true_eq]
  constructor
  · intro h
    rw [sub_zero, abs_zero] at h
    rw [max_eq_left (abs_nonneg q)] at h
    have h2 : (0 : ℚ) ≤ (1 / 1000000000) * |q| := by positivity
    rw [max_eq_left h2] at h
    have h3 : |q| ≤ 0 := by nlinarith
    exact abs_eq_zero.mp (le_antisymm h3 (abs_nonneg q))
  · rintro rfl
    simp

theorem parseLoop_empty : ∀ (n : ℕ) (st : EdfState), st.binaryContent = [] →
    parseLoop (n + 1) st = .ok { st with status := .done }
  | 0, st, h => by
    simp [parseLoop, extract, h]
  | n + 1, st, h => by
    have ih := parseLoop_empty n { st with status := Stage.done } (by simpa using h)
    rw [parseLoop]
    simp only [extract, h, List.isEmpty_nil, if_pos rfl]
    simpa [h] using ih

/-- C3 (amended): reaching end-of-source with NO bytes remaining at the
start of a record slot is not an error: provided the call attempts at
least one record read, `stream` returns normally, the state machine
transitions to `Done`, and everything decoded before exhaustion (the
descriptors and their records) is preserved unchanged.  A source whose
remaining length is non-zero but smaller than `recordByteSize` (a
truncated final record) instead raises a decode error — see the
counterexample. -/
theorem c3_end_of_source_amended (st : EdfState) (d : Option ℚ)
    (hstage : st.status = .metadata ∨ st.status = .parsing)
    (hempty : st.binaryContent = [])
    (hrtr : 1 ≤ recordsToRead st d) :
    ∃ st', stream st d = .ok st' ∧ st'.status = .done ∧
      st'.signals = st.signals ∧ st'.binaryContent = [] := by
  obtain ⟨m, hm⟩ : ∃ m, (recordsToRead st d).toNat = m + 1 :=
    ⟨(recordsToRead st d).toNat - 1, by omega⟩
  have hloop := parseLoop_empty m { st with status := Stage.parsing } (by simpa using hempty)
  refine ⟨{ st with status := .done }, ?_, rfl, rfl, by simpa using hempty⟩
  rcases hstage with h | h
  · rw [stream, h, hm]
    simpa using hloop
  · rw [stream, h, hm]
    simpa using hloop

/-- Counterexample for C3 as stated: a complete header and metadata block
for one signal with one 2-byte sample per record, followed by a single
stray byte — a truncated final record.  The third `stream` call does not
transition to `Done`: it raises a decode (`struct.error`) exception. -/
theorem c3_end_of_source_counterexample :
    streamIter 3 (initState
      (mkHeaderBlob "512" "1" "1" "1" ++
       mkMetaBlobOne "EEG" "AgCl" "uV" "-100.00" "100.00" "-32768" "32767" "" "1" "" ++
       [7])) = .error .structError := by
  with_unfolding_all rfl

/-- A parsing-stage state with an exhausted source and one already
decoded record, used by the C3 witness. -/
def c3ExhaustedState : EdfState :=
  { binaryContent := [], status := .parsing,
    header := { version := "0", patient := "", recordId := "", startDate := "",
                startTime := "", headerSize := 512, reserved := "",
                numberRecords := 1, recordDuration := 1, numberSignals := 1 },
    numberSignals := 1, numberRecords := 1, signalHeaderSize := 256,
    samplesPerRecord := 1, recordSize := 2,
    signals := [⟨[("Samples", "1")], [[5]], none⟩] }

/-- Witness for C3 (amended): a parsing-stage state with an exhausted
source; `stream` returns normally, lands in `Done`, and the one decoded
record of the single descriptor is preserved. -/
theorem c3_end_of_source_amended_witness :
    ∃ st', stream c3ExhaustedState (some 3600) = .ok st' ∧
      st'.status = .done ∧
      st'.signals = [⟨[("Samples", "1")], [[5]], none⟩] ∧
      st'.binaryContent = [] := by
  exact c3_end_of_source_amended c3ExhaustedState (some 3600) (Or.inr rfl) rfl
    (by rw [show recordsToRead c3ExhaustedState (some 3600) = 3600 from by
        with_unfolding_all rfl]
        omega)

/-- C8 (amended): when the parsed header's `recordDurationSeconds` is
numerically zero, every `stream` call made from the `MetadataParsed` or
`Parsing` stage sets its records-to-consume count to exactly 1 regardless
of the duration argument, and therefore consumes AT MOST one record block:
exactly one (appending its samples and dropping `recordByteSize` bytes)
when the source still holds a full record, and zero — transitioning to
`Done` — when the source is already exhausted. -/
theorem c8_zero_duration_amended (st : EdfState) (d : Option ℚ)
    (hstage : st.status = .metadata ∨ st.status = .parsing)
    (hrd : st.header.recordDuration = 0) :
    recordsToRead st d = 1 ∧
    (st.binaryContent = [] → stream st d = .ok { st with status := .done }) ∧
    (∀ sigs',
      0 < st.recordSize.toNat →
      st.recordSize.toNat ≤ st.binaryContent.length →
      parseOneRecord st.samplesPerRecord st.signals
        (st.binaryContent.take st.recordSize.toNat) = .ok sigs' →
      stream st d = .ok { st with
        status := .parsing
        binaryContent := st.binaryContent.drop st.recordSize.toNat
        signals := sigs' }) := by
  have hclose : mathIsclose st.header.recordDuration 0 = true := by
    rw [hrd]
    exact (mathIsclose_zero_iff 0).mpr rfl
  have hone : recordsToRead st d = 1 := by
    rw [recordsToRead.eq_def, if_pos hclose]
  have hstream : stream st d = parseLoop 1 { st with status := .parsing } := by
    rcases hstage with h | h
    · rw [stream, h, hone]
      rfl
    · rw [stream, h, hone]
      rfl
  refine ⟨hone, ?_, ?_⟩
  · intro hempty
    rw [hstream]
    simpa using parseLoop_empty 0 { st with status := Stage.parsing } (by simpa using hempty)
  · intro sigs' hpos hle hpor
    rw [hstream, parseLoop]
    have hnonempty : st.binaryContent.isEmpty = false := by
      cases hc : st.binaryContent with
      | nil => rw [hc] at hle; simp at hle; omega
      | cons a l => simp
    have hrs : (0 : ℤ) ≤ st.recordSize := by omega
    have htake : pyTake st.binaryContent st.recordSize = st.binaryContent.take st.recordSize.toNat :=
      pyTake_eq_take _ _ hrs
    have hdrop : pyDrop st.binaryContent st.recordSize = st.binaryContent.drop st.recordSize.toNat :=
      pyDrop_eq_drop _ _ hrs
    have hbne : (st.binaryContent.take st.recordSize.toNat).isEmpty = false := by
      have : (st.binaryContent.take st.recordSize.toNat).length = st.recordSize.toNat := by
        simp
        omega
      cases hc : st.binaryContent.take st.recordSize.toNat with
      | nil => rw [hc] at this; simp at this; omega
      | cons a l => simp
    simp only [extract, hnonempty, Bool.false_eq_true, if_false, htake, hdrop, hbne, hpor]
    rw [parseLoop]

/-- Counterexample for C8 as stated: a complete header (`recordDuration`
"0") and metadata block with no record bytes at all.  The third `stream`
call is made from the `MetadataParsed` stage, yet consumes ZERO record
blocks (the lone descriptor ends with 0 records) and lands in `Done` —
not "exactly one record block". -/
theorem c8_zero_duration_counterexample :
    (streamIter 3 (initState
      (mkHeaderBlob "512" "1" "0" "1" ++
       mkMetaBlobOne "EEG" "AgCl" "uV" "-100.00" "100.00" "-32768" "32767" "" "1" ""))).map
      (fun st => (st.status, st.signals.map Signal.numberRecords)) =
      .ok (.done, [0]) := by
  with_unfolding_all rfl

/-- A metadata-stage state with zero record duration and one full record
remaining, used by the C8 witness. -/
def c8ZeroDurState : EdfState :=
  { binaryContent := [5, 0], status := .metadata,
    header := { version := "0", patient := "", recordId := "", startDate := "",
                startTime := "", headerSize := 512, reserved := "",
                numberRecords := 1, recordDuration := 0, numberSignals := 1 },
    numberSignals := 1, numberRecords := 1, signalHeaderSize := 256,
    samplesPerRecord := 1, recordSize := 2,
    signals := [⟨[("Samples", "1")], [], none⟩] }

/-- Witness for C8 (amended): with `recordDuration = 0` and one full
record in the source, a `stream` call with a huge requested duration still
reads exactly one record. -/
theorem c8_zero_duration_amended_witness :
    recordsToRead c8ZeroDurState (some 999999) = 1 ∧
    stream c8ZeroDurState (some 999999) = .ok { c8ZeroDurState with
      status := .parsing
      binaryContent := []
      signals := [⟨[("Samples", "1")], [[5]], none⟩] } := by
  have h := c8_zero_duration_amended c8ZeroDurState (some 999999) (Or.inl rfl) rfl
  refine ⟨h.1, ?_⟩
  have h3 := h.2.2 [⟨[("Samples", "1")], [[5]], none⟩] (by decide) (by decide)
    (by with_unfolding_all rfl)
  simpa using h3

/-! ## Claim C4 — termination of parse_binary -/

theorem streamIter_done : ∀ (n : ℕ) (st : EdfState), st.status = .done →
    streamIter n st = .ok st
  | 0, _, _ => rfl
  | n + 1, st, h => by rw [streamIter, if_pos h]

theorem streamIter_append : ∀ (m n : ℕ) (st : EdfState),
    streamIter (m + n) st =
      match streamIter m st with
      | .error e => .error e
      | .ok st' => streamIter n st'
  | 0, n, st => by simp [streamIter]
  | m + 1, n, st => by
    rw [show m + 1 + n = (m + n) + 1 from by omega, streamIter, streamIter]
    by_cases h : st.status = .done
    · rw [if_pos h, if_pos h]
      simp [streamIter_done n st h]
    · rw [if_neg h, if_neg h]
      cases stream st (some DEFAULT_DURATION_IN_SECONDS) with
      | error e => rfl
      | ok st' => exact streamIter_append m n st'

/-- The blob of the C4 counterexample: a valid 256-byte header declaring
zero signals and a record duration of -1 second, with nothing after it. -/
def c4LoopBlob : List ℕ := mkHeaderBlob "512" "1" "-1" "0"

/-- The state `parse_binary(c4LoopBlob)` is stuck in: `records_to_read`
evaluates to `int(3600 / -1) = -3600`, so the record loop never runs and
the stage never leaves `parsing`. -/
def c4LoopState : EdfState :=
  { binaryContent := [], status := .parsing,
    header := { version := byteArrayToString (mkField "0" 8),
                patient := byteArrayToString (mkField "patient" 80),
                recordId := byteArrayToString (mkField "recording" 80),
                startDate := byteArrayToString (mkField "01.01.01" 8),
                startTime := byteArrayToString (mkField "00.00.00" 8),
                headerSize := 512, reserved := byteArrayToString (mkField "" 44),
                numberRecords := 1, recordDuration := -1, numberSignals := 0 },
    numberSignals := 0, numberRecords := 1, signalHeaderSize := 0,
    samplesPerRecord := 0, recordSize := 0, signals := [] }

theorem c4LoopState_fixed :
    stream c4LoopState (some DEFAULT_DURATION_IN_SECONDS) = .ok c4LoopState := by
  with_unfolding_all rfl

theorem streamIter_c4LoopState : ∀ n, streamIter n c4LoopState = .ok c4LoopState
  | 0 => rfl
  | n + 1 => by
    rw [streamIter, if_neg (by decide), c4LoopState_fixed]
    exact streamIter_c4LoopState n

/-- Counterexample for C4 as stated: the 256-byte blob `c4LoopBlob`
parses as a header (`recordDurationSeconds = -1`), yet `parse_binary`
never reaches `Done`: from the third call on, `records_to_read =
int(3600 / -1) = -3600`, `range(0, -3600)` is empty, and the `parsing`
stage repeats forever. -/
theorem c4_termination_counterexample :
    (∃ h, edfHeaderParse c4LoopBlob = .ok h) ∧ ¬ parseAllReachesDone c4LoopBlob := by
  constructor
  · exact ⟨_, by with_unfolding_all rfl⟩
  · rintro ⟨n, st', hrun, hdone⟩
    have h3 : streamIter 3 (initState c4LoopBlob) = .ok c4LoopState := by
      with_unfolding_all rfl
    match n with
    | 0 =>
        have h0 : (streamIter 0 (initState c4LoopBlob)).map EdfState.status
            = .ok .opened := by with_unfolding_all rfl
        rw [hrun] at h0
        simp only [Except.map, Except.ok.injEq] at h0
        rw [hdone] at h0
        cases h0
    | 1 =>
        have h0 : (streamIter 1 (initState c4LoopBlob)).map EdfState.status
            = .ok .header := by with_unfolding_all rfl
        rw [hrun] at h0
        simp only [Except.map, Except.ok.injEq] at h0
        rw [hdone] at h0
        cases h0
    | 2 =>
        have h0 : (streamIter 2 (initState c4LoopBlob)).map EdfState.status
            = .ok .metadata := by with_unfolding_all rfl
        rw [hrun] at h0
        simp only [Except.map, Except.ok.injEq] at h0
        rw [hdone] at h0
        cases h0
    | k + 3 =>
        rw [show k + 3 = 3 + k from by omega, streamIter_append 3 k, h3] at hrun
        simp only [streamIter_c4LoopState k, Except.ok.injEq] at hrun
        rw [← hrun] at hdone
        cases hdone

/-- Every signal's `Samples` metadata parses, so each per-record sample
count is computable (this holds for every state produced by a successful
metadata stage, whose sample-count sum forced each parse to succeed). -/
def signalsCountsOk (sigs : List Signal) : Prop :=
  ∀ s ∈ sigs, ∃ c : ℤ, s.numberSamplesPerRecord = .ok c

theorem numberSamplesPerRecord_add (s : Signal) (r : List ℤ) :
    (s.addSamplesForOneRecord r).numberSamplesPerRecord = s.numberSamplesPerRecord := rfl

theorem distributeRecord_ok :
    ∀ (sigs : List Signal) (data : List ℤ) (start : ℤ), signalsCountsOk sigs →
      ∃ sigs', distributeRecord data start sigs = .ok sigs' ∧
        signalsCountsOk sigs' ∧ sigs'.length = sigs.length
  | [], data, start, _ =>
    ⟨[], by simp [distributeRecord], fun s hs => absurd hs (by simp), rfl⟩
  | s :: ss, data, start, h => by
    obtain ⟨c, hc⟩ := h s (by simp)
    obtain ⟨ss', hss, hok, hlen⟩ :=
      distributeRecord_ok ss data (start + c) (fun t ht => h t (by simp [ht]))
    refine ⟨s.addSamplesForOneRecord (pySlice data start (start + c)) :: ss', ?_, ?_, by simp [hlen]⟩
    · rw [distributeRecord, hc, except_bind_ok, hss]
      rfl
    · intro t ht
      rcases List.mem_cons.mp ht with rfl | ht'
      · exact ⟨c, by rw [numberSamplesPerRecord_add]; exact hc⟩
      · exact hok t ht'

theorem parseOneRecord_ok (spr : ℤ) (sigs : List Signal) (sample : List ℕ)
    (hc : signalsCountsOk sigs) (hlen : sample.length = 2 * spr.toNat)
    (hne : sample.isEmpty = false) :
    ∃ sigs', parseOneRecord spr sigs sample = .ok sigs' ∧
      signalsCountsOk sigs' ∧ sigs'.length = sigs.length := by
  obtain ⟨sigs', h1, h2, h3⟩ := distributeRecord_ok sigs (decodeInt16Pairs sample) 0 hc
  exact ⟨sigs', by rw [parseOneRecord, hne]; simp only [Bool.false_eq_true, if_false,
    hlen, if_pos rfl]; exact h1, h2, h3⟩

theorem parseLoop_rs_zero : ∀ (n : ℕ) (st : EdfState), st.recordSize = 0 →
    parseLoop (n + 1) st = .ok { st with status := .done }
  | 0, st, h => by
    rw [parseLoop]
    by_cases hc : st.binaryContent.isEmpty
    · simp [extract, hc, parseLoop]
    · have htake : pyTake st.binaryContent st.recordSize = [] := by
        rw [h, pyTake_eq_take _ _ le_rfl]
        simp
      have hdrop : pyDrop st.binaryContent st.recordSize = st.binaryContent := by
        rw [h, pyDrop_eq_drop _ _ le_rfl]
        simp
      simp [extract, hc, htake, hdrop, parseLoop]
  | n + 1, st, h => by
    rw [parseLoop]
    by_cases hc : st.binaryContent.isEmpty
    · have ih := parseLoop_rs_zero n { st with status := Stage.done } (by simpa using h)
      simp only [extract, hc, if_pos rfl, List.isEmpty_nil]
      simpa using ih
    · have htake : pyTake st.binaryContent st.recordSize = [] := by
        rw [h, pyTake_eq_take _ _ le_rfl]
        simp
      have hdrop : pyDrop st.binaryContent st.recordSize = st.binaryContent := by
        rw [h, pyDrop_eq_drop _ _ le_rfl]
        simp
      have ih := parseLoop_rs_zero n { st with status := Stage.done } (by simpa using h)
      simp only [extract, hc, Bool.false_eq_true, if_false, htake, hdrop, List.isEmpty_nil,
        if_pos rfl]
      simpa using ih

theorem parseLoop_full : ∀ (n : ℕ) (st : EdfState) (k : ℕ),
    st.recordSize = 2 * st.samplesPerRecord →
    0 < st.samplesPerRecord →
    signalsCountsOk st.signals →
    st.binaryContent.length = k * st.recordSize.toNat →
    ∃ st', parseLoop n st = .ok st' ∧
      st'.binaryContent.length = (k - min n k) * st.recordSize.toNat ∧
      st'.status = (if k < n then Stage.done else st.status) ∧
      st'.recordSize = st.recordSize ∧ st'.samplesPerRecord = st.samplesPerRecord ∧
      st'.header = st.header ∧ signalsCountsOk st'.signals
  | 0, st, k, _, _, hcnt, hlen => by
    refine ⟨st, rfl, ?_, by simp, rfl, rfl, rfl, hcnt⟩
    simpa using hlen
  | n + 1, st, k, hrs, hspr, hcnt, hlen => by
    have hrsnat : 0 < st.recordSize.toNat := by omega
    match k with
    | 0 =>
        have hempty : st.binaryContent = [] := by
          rw [List.length_eq_zero.symm]
          simpa using hlen
        obtain hl := parseLoop_empty n st hempty
        refine ⟨{ st with status := .done }, hl, by simpa using hempty, ?_, rfl, rfl, rfl, hcnt⟩
        simp
    | j + 1 =>
        have hlennz : st.recordSize.toNat ≤ st.binaryContent.length := by
          rw [hlen]; nlinarith
        have hcne : st.binaryContent.isEmpty = false := by
          cases hc : st.binaryContent with
          | nil => rw [hc] at hlennz; simp at hlennz; omega
          | cons a l => simp
        have hrs0 : (0 : ℤ) ≤ st.recordSize := by omega
        have htake := pyTake_eq_take st.binaryContent st.recordSize hrs0
        have hdrop := pyDrop_eq_drop st.binaryContent st.recordSize hrs0
        have htlen : (st.binaryContent.take st.recordSize.toNat).length
            = st.recordSize.toNat := by simp; omega
        have htne : (st.binaryContent.take st.recordSize.toNat).isEmpty = false := by
          cases hc : st.binaryContent.take st.recordSize.toNat with
          | nil => rw [hc] at htlen; simp at htlen; omega
          | cons a l => simp
        obtain ⟨sigs', hpor, hcnt', hslen⟩ := parseOneRecord_ok st.samplesPerRecord
          st.signals (st.binaryContent.take st.recordSize.toNat) hcnt
          (by rw [htlen]; omega) htne
        obtain ⟨st'', hloop, hl2, hst2, hrs2, hspr2, hhdr2, hcnt2⟩ :=
          parseLoop_full n { st with
            binaryContent := st.binaryContent.drop st.recordSize.toNat
            signals := sigs' } j hrs hspr hcnt'
            (by simp [hlen]; ring_nf; omega)
        rw [parseLoop]
        simp only [extract, hcne, Bool.false_eq_true, if_false, htake, hdrop, htne, hpor]
        refine ⟨st'', hloop, ?_, ?_, hrs2, hspr2, hhdr2, hcnt2⟩
        · rw [hl2]
          congr 1
          omega
        · rw [hst2]
          by_cases hj : j < n
          · rw [if_pos hj, if_pos (by omega)]
          · rw [if_neg hj, if_neg (by omega)]

theorem pyTrunc_one_le (q : ℚ) (h : 1 ≤ q) : 1 ≤ pyTrunc q := by
  rw [pyTrunc, if_neg (by linarith)]
  exact Int.le_floor.mpr (by exact_mod_cast h)

theorem mathIsclose_zero_false (q : ℚ) (h : q ≠ 0) : mathIsclose q 0 = false := by
  cases hb : mathIsclose q 0 with
  | false => rfl
  | true => exact absurd ((mathIsclose_zero_iff q).mp hb) h

theorem recordsToRead_default_pos (st : EdfState)
    (hrd : st.header.recordDuration = 0 ∨
      (0 < st.header.recordDuration ∧ st.header.recordDuration ≤ 3600)) :
    1 ≤ recordsToRead st (some DEFAULT_DURATION_IN_SECONDS) := by
  rcases hrd with h0 | ⟨hpos, hle⟩
  · rw [recordsToRead.eq_def, if_pos (by rw [h0]; exact (mathIsclose_zero_iff 0).mpr rfl)]
  · rw [recordsToRead.eq_def, if_neg (by rw [mathIsclose_zero_false _ (by linarith)]; simp)]
    have hne : DEFAULT_DURATION_IN_SECONDS ≠ 0 := by norm_num [DEFAULT_DURATION_IN_SECONDS]
    simp only [hne, if_false]
    refine pyTrunc_one_le _ ?_
    rw [le_div_iff₀ hpos, one_mul]
    simpa [DEFAULT_DURATION_IN_SECONDS] using hle

theorem streamReachesDone (k : ℕ) : ∀ (st : EdfState),
    (st.status = .metadata ∨ st.status = .parsing) →
    st.recordSize = 2 * st.samplesPerRecord →
    0 ≤ st.samplesPerRecord →
    signalsCountsOk st.signals →
    st.binaryContent.length = k * st.recordSize.toNat →
    (st.header.recordDuration = 0 ∨
      (0 < st.header.recordDuration ∧ st.header.recordDuration ≤ 3600)) →
    ∃ n st', streamIter n st = .ok st' ∧ st'.status = .done := by
  induction k using Nat.strong_induction_on with
  | _ k ih =>
    intro st hstage hrs hspr hcnt hlen hrd
    have hrtr := recordsToRead_default_pos st hrd
    have hstnd : st.status ≠ .done := by
      rcases hstage with h | h <;> rw [h] <;> decide
    have hstream : stream st (some DEFAULT_DURATION_IN_SECONDS) =
        parseLoop (recordsToRead st (some DEFAULT_DURATION_IN_SECONDS)).toNat
          { st with status := .parsing } := by
      rcases hstage with h | h <;> rw [stream, h]
    obtain ⟨m, hm⟩ : ∃ m, (recordsToRead st (some DEFAULT_DURATION_IN_SECONDS)).toNat
        = m + 1 :=
      ⟨(recordsToRead st (some DEFAULT_DURATION_IN_SECONDS)).toNat - 1, by omega⟩
    rcases eq_or_lt_of_le hspr with hzero | hspr0
    · -- samplesPerRecord = 0: the first loop iteration reads zero bytes and stops
      have hrs0 : ({ st with status := Stage.parsing } : EdfState).recordSize = 0 := by
        show st.recordSize = 0
        omega
      refine ⟨1, { st with status := .done }, ?_, rfl⟩
      rw [streamIter, if_neg hstnd, hstream, hm,
        parseLoop_rs_zero m { st with status := Stage.parsing } hrs0]
      rfl
    · -- samplesPerRecord > 0: the loop consumes full records
      obtain ⟨st', hloop, hl2, hst2, hrs2, hspr2, hhdr2, hcnt2⟩ :=
        parseLoop_full (recordsToRead st (some DEFAULT_DURATION_IN_SECONDS)).toNat
          { st with status := .parsing } k hrs hspr0 hcnt hlen
      have hrsEq : st'.recordSize = st.recordSize := hrs2
      have hsprEq : st'.samplesPerRecord = st.samplesPerRecord := hspr2
      have hhdrEq : st'.header = st.header := hhdr2
      have hlenEq : st'.binaryContent.length =
          (k - min (recordsToRead st (some DEFAULT_DURATION_IN_SECONDS)).toNat k) *
            st.recordSize.toNat := hl2
      by_cases hk : k < (recordsToRead st (some DEFAULT_DURATION_IN_SECONDS)).toNat
      · refine ⟨1, st', ?_, by rw [hst2, if_pos hk]⟩
        rw [streamIter, if_neg hstnd, hstream, hloop]
        rfl
      · have hst2' : st'.status = Stage.parsing := by
          have : st'.status = (if k < (recordsToRead st
              (some DEFAULT_DURATION_IN_SECONDS)).toNat then Stage.done
              else Stage.parsing) := hst2
          rw [this, if_neg hk]
        have hklt : k - (recordsToRead st (some DEFAULT_DURATION_IN_SECONDS)).toNat < k := by
          omega
        obtain ⟨n', st'', hrun, hdone⟩ := ih _ hklt st' (Or.inr hst2')
          (by rw [hrsEq, hsprEq]; exact hrs)
          (by rw [hsprEq]; exact hspr)
          hcnt2
          (by rw [hlenEq, hrsEq]; congr 1; omega)
          (by rw [hhdrEq]; exact hrd)
        refine ⟨n' + 1, st'', ?_, hdone⟩
        rw [streamIter, if_neg hstnd, hstream, hloop]
        exact hrun

/-- C4 (amended): `parse_binary` terminates — the advance loop reaches
`Done` after finitely many calls — whenever the header and metadata stages
succeed and yield consistent geometry (`recordByteSize = 2 ×
samplesPerRecord ≥ 0`, parseable per-signal counts) with the remaining
byte count an exact multiple of `recordByteSize`, provided the parsed
`recordDurationSeconds` is numerically zero or positive and at most the
fixed one-hour duration window.  For a negative duration (such as the
-32768 sentinel) or one larger than the window, `records_to_read`
truncates to zero or below and `Done` is never reached — see the
counterexample. -/
theorem c4_parse_binary_termination_amended (blob : List ℕ) (st2 : EdfState) (k : ℕ)
    (h2 : streamIter 2 (initState blob) = .ok st2)
    (hstage : st2.status = .metadata)
    (hrs : st2.recordSize = 2 * st2.samplesPerRecord)
    (hspr : 0 ≤ st2.samplesPerRecord)
    (hcounts : signalsCountsOk st2.signals)
    (hmult : st2.binaryContent.length = k * st2.recordSize.toNat)
    (hrd : st2.header.recordDuration = 0 ∨
      (0 < st2.header.recordDuration ∧ st2.header.recordDuration ≤ 3600)) :
    parseAllReachesDone blob := by
  obtain ⟨n, st', hrun, hdone⟩ :=
    streamReachesDone k st2 (Or.inl hstage) hrs hspr hcounts hmult hrd
  refine ⟨2 + n, st', ?_, hdone⟩
  rw [streamIter_append 2 n, h2]
  exact hrun

/-- The blob of the C4 witness: one signal, one sample per record, record
duration one second, followed by two complete records. -/
def c4WitBlob : List ℕ :=
  mkHeaderBlob "512" "2" "1" "1" ++
  mkMetaBlobOne "EEG" "AgCl" "uV" "-100.00" "100.00" "-32768" "32767" "" "1" "" ++
  [5, 0, 7, 0]

/-- The state after the header and metadata stages of `c4WitBlob`. -/
def c4WitSt2 : EdfState :=
  { binaryContent := [5, 0, 7, 0], status := .metadata,
    header := { version := byteArrayToString (mkField "0" 8),
                patient := byteArrayToString (mkField "patient" 80),
                recordId := byteArrayToString (mkField "recording" 80),
                startDate := byteArrayToString (mkField "01.01.01" 8),
                startTime := byteArrayToString (mkField "00.00.00" 8),
                headerSize := 512, reserved := byteArrayToString (mkField "" 44),
                numberRecords := 2, recordDuration := 1, numberSignals := 1 },
    numberSignals := 1, numberRecords := 2, signalHeaderSize := 256,
    samplesPerRecord := 1, recordSize := 2,
    signals := [⟨[("Label", byteArrayToString (mkField "EEG" 16)),
                  ("Transducer Type", byteArrayToString (mkField "AgCl" 80)),
                  ("Physical dimension", byteArrayToString (mkField "uV" 8)),
                  ("Physical minimum", byteArrayToString (mkField "-100.00" 8)),
                  ("Physical maximum", byteArrayToString (mkField "100.00" 8)),
                  ("Digital minimum", byteArrayToString (mkField "-32768" 8)),
                  ("Digital maximum", byteArrayToString (mkField "32767" 8)),
                  ("Prefiltering", byteArrayToString (mkField "" 80)),
                  ("Samples", byteArrayToString (mkField "1" 8)),
                  ("Reserved", byteArrayToString (mkField "" 32))],
                [], some (.bounds 200 65535 (-100) (-32768))⟩] }

/-- Witness for C4 (amended): the two-record blob is fully parsed and the
loop reaches `Done`. -/
theorem c4_parse_binary_termination_amended_witness :
    parseAllReachesDone c4WitBlob := by
  refine c4_parse_binary_termination_amended c4WitBlob c4WitSt2 2
    (by with_unfolding_all rfl) rfl (by decide) (by decide) ?_ (by decide)
    (Or.inr ⟨by norm_num [c4WitSt2], by norm_num [c4WitSt2]⟩)
  intro s hs
  simp only [c4WitSt2, List.mem_singleton] at hs
  subst hs
  exact ⟨1, by with_unfolding_all rfl⟩

/-! ## Claim C10 — all descriptors hold the same number of records -/

/-- All descriptors of the list agree on `number_records()`. -/
def sameRecordCount (sigs : List Signal) : Prop :=
  ∀ s ∈ sigs, ∀ t ∈ sigs, s.numberRecords = t.numberRecords

theorem setMetadata_samples (s : Signal) (f v : String) (s' : Signal)
    (h : s.setMetadata f v = .ok s') : s'.samples = s.samples := by
  rw [Signal.setMetadata] at h
  by_cases hlen : (dictSet s.metadata f v).length = SIGNAL_HEADER_FIELDS.length
  · rw [if_pos hlen] at h
    rcases h1 : dictGet (dictSet s.metadata f v) "Physical maximum" with _ | pmax <;>
      rw [h1] at h
    · cases h
    rcases h2 : dictGet (dictSet s.metadata f v) "Physical minimum" with _ | pmin <;>
      rw [h2] at h
    · cases h
    rcases h3 : dictGet (dictSet s.metadata f v) "Digital maximum" with _ | dmax <;>
      rw [h3] at h
    · cases h
    rcases h4 : dictGet (dictSet s.metadata f v) "Digital minimum" with _ | dmin <;>
      rw [h4] at h
    · cases h
    dsimp only at h
    rcases h5 : scalerInit (.str pmax) (.str pmin) (.str dmax) (.str dmin) with sc | e <;>
      rw [h5] at h
    · cases h
    · cases h
      rfl
  · rw [if_neg hlen] at h
    cases h
    rfl

theorem setMetadataAll_samples (l : String) :
    ∀ (sigs : List Signal) (ms : List String) (sigs' : List Signal),
      setMetadataAll l sigs ms = .ok sigs' →
      sigs'.map Signal.samples = sigs.map Signal.samples
  | sigs, [], sigs', h => by
    cases sigs with
    | nil => cases h; rfl
    | cons s ss => cases h; rfl
  | [], m :: ms, sigs', h => by cases h; rfl
  | s :: ss, m :: ms, sigs', h => by
    rw [setMetadataAll] at h
    rcases h1 : s.setMetadata l m with e | s1 <;> rw [h1] at h
    · cases h
    rcases h2 : setMetadataAll l ss ms with e | ss1 <;> rw [h2] at h
    · cases h
    cases h
    have := setMetadataAll_samples l ss ms ss1 h2
    simp [this, setMetadata_samples s l m s1 h1]

theorem parseMetadataFields_samples (ns : ℤ) (headerBytes : List ℕ) :
    ∀ (fields : List (String × ℕ)) (start : ℤ) (sigs sigs' : List Signal),
      parseMetadataFields ns headerBytes fields start sigs = .ok sigs' →
      sigs'.map Signal.samples = sigs.map Signal.samples
  | [], start, sigs, sigs', h => by cases h; rfl
  | (name, w) :: rest, start, sigs, sigs', h => by
    rw [parseMetadataFields] at h
    by_cases hlen : (pySlice headerBytes start (start + (w : ℤ) * ns)).length = w * ns.toNat
    · rw [if_pos hlen] at h
      dsimp only at h
      rcases h1 : setMetadataAll name sigs ((List.range ns.toNat).map
        (fun i => byteArrayToString
          (natSlice (pySlice headerBytes start (start + (w : ℤ) * ns)) (i * w) w))) with
        e | sigs1 <;> rw [h1] at h
      · cases h
      · rw [except_bind_ok] at h
        have ha := setMetadataAll_samples name sigs _ sigs1 h1
        have hb := parseMetadataFields_samples ns headerBytes rest
          (start + (w : ℤ) * ns) sigs1 sigs' h
        rw [hb, ha]
    · rw [if_neg hlen] at h
      cases h

theorem parseMetadata_samples (ns : ℤ) (sigs : List Signal) (headerBytes : List ℕ)
    (sigs' : List Signal) (spr : ℤ)
    (h : parseMetadata ns sigs headerBytes = .ok (sigs', spr)) :
    sigs'.map Signal.samples = sigs.map Signal.samples := by
  rw [parseMetadata] at h
  rcases h1 : parseMetadataFields ns headerBytes
    (SIGNAL_HEADER_FIELDS.zip SIGNAL_HEADER_FIELDS_SIZE) 0 sigs with e | sigs1 <;>
    rw [h1] at h
  · cases h
  rw [except_bind_ok] at h
  rcases h2 : sumSamplesPerRecord sigs1 with e | spr1 <;> rw [h2] at h
  · cases h
  rw [except_bind_ok] at h
  injection h with hp
  have hs : sigs1 = sigs' := congrArg Prod.fst hp
  rw [← hs]
  exact parseMetadataFields_samples ns headerBytes _ 0 sigs sigs1 h1

theorem distributeRecord_records :
    ∀ (sigs : List Signal) (data : List ℤ) (start : ℤ) (sigs' : List Signal),
      distributeRecord data start sigs = .ok sigs' →
      List.Forall₂ (fun s s' => s'.numberRecords = s.numberRecords + 1) sigs sigs'
  | [], data, start, sigs', h => by cases h; exact .nil
  | s :: ss, data, start, sigs', h => by
    rw [distributeRecord] at h
    rcases h1 : s.numberSamplesPerRecord with e | c <;> rw [h1] at h
    · cases h
    rw [except_bind_ok] at h
    rcases h2 : distributeRecord data (start + c) ss with e | ss' <;> rw [h2] at h
    · cases h
    rw [except_bind_ok] at h
    cases h
    refine .cons ?_ (distributeRecord_records ss data (start + c) ss' h2)
    simp [Signal.numberRecords, Signal.addSamplesForOneRecord]

theorem parseOneRecord_records (spr : ℤ) (sigs : List Signal) (sample : List ℕ)
    (sigs' : List Signal) (h : parseOneRecord spr sigs sample = .ok sigs') :
    sigs' = sigs ∨
      List.Forall₂ (fun s s' => s'.numberRecords = s.numberRecords + 1) sigs sigs' := by
  rw [parseOneRecord] at h
  by_cases he : sample.isEmpty
  · rw [if_pos he] at h
    cases h
    exact Or.inl rfl
  · rw [if_neg he] at h
    by_cases hl : sample.length = 2 * spr.toNat
    · rw [if_pos hl] at h
      exact Or.inr (distributeRecord_records sigs _ 0 sigs' h)
    · rw [if_neg hl] at h
      cases h

theorem forall₂_exists_mem_left {α β : Type} {R : α → β → Prop}
    {l : List α} {l' : List β} (h : List.Forall₂ R l l') :
    ∀ b ∈ l', ∃ a ∈ l, R a b := by
  induction h with
  | nil => intro b hb; cases hb
  | cons hab htl ih =>
      intro b hb
      rcases List.mem_cons.mp hb with rfl | hb'
      · exact ⟨_, by simp, hab⟩
      · obtain ⟨a, ha, hr⟩ := ih b hb'
        exact ⟨a, by simp [ha], hr⟩

theorem sameRecordCount_of_forall₂ (sigs sigs' : List Signal)
    (h : List.Forall₂ (fun s s' => s'.numberRecords = s.numberRecords + 1) sigs sigs')
    (hsrc : sameRecordCount sigs) : sameRecordCount sigs' := by
  intro s' hs' t' ht'
  obtain ⟨s, hs, hrs⟩ := forall₂_exists_mem_left h s' hs'
  obtain ⟨t, ht, hrt⟩ := forall₂_exists_mem_left h t' ht'
  rw [hrs, hrt, hsrc s hs t ht]

theorem sameRecordCount_of_map_eq (sigs sigs' : List Signal)
    (h : sigs'.map Signal.samples = sigs.map Signal.samples)
    (hsrc : sameRecordCount sigs) : sameRecordCount sigs' := by
  intro s' hs' t' ht'
  have hs'' : s'.samples ∈ sigs.map Signal.samples := by
    rw [← h]; exact List.mem_map_of_mem _ hs'
  have ht'' : t'.samples ∈ sigs.map Signal.samples := by
    rw [← h]; exact List.mem_map_of_mem _ ht'
  obtain ⟨s, hs, hseq⟩ := List.mem_map.mp hs''
  obtain ⟨t, ht, hteq⟩ := List.mem_map.mp ht''
  have : s.numberRecords = t.numberRecords := hsrc s hs t ht
  simp only [Signal.numberRecords] at this ⊢
  rw [← hseq, ← hteq, this]

theorem extract_signals (st : EdfState) (c : ℤ) :
    (extract st c).2.signals = st.signals := by
  rw [extract]
  by_cases hc : st.binaryContent.isEmpty
  · rw [if_pos hc]
  · rw [if_neg hc]

theorem parseLoop_sameRecordCount :
    ∀ (n : ℕ) (st st' : EdfState), parseLoop n st = .ok st' →
      sameRecordCount st.signals → sameRecordCount st'.signals
  | 0, st, st', h, hsrc => by cases h; exact hsrc
  | n + 1, st, st', h, hsrc => by
    rw [parseLoop] at h
    rcases hext : extract st st.recordSize with ⟨bytes, st1⟩
    rw [hext] at h
    dsimp only at h
    have hsig : st1.signals = st.signals := by
      rw [show st1 = (extract st st.recordSize).2 from by rw [hext]]
      exact extract_signals st st.recordSize
    by_cases he : bytes.isEmpty
    · rw [if_pos he] at h
      refine parseLoop_sameRecordCount n _ st' h ?_
      simpa [hsig] using hsrc
    · rw [if_neg he] at h
      rcases h1 : parseOneRecord st1.samplesPerRecord st1.signals bytes with e | sigs1 <;>
        rw [h1] at h
      · cases h
      refine parseLoop_sameRecordCount n _ st' h ?_
      show sameRecordCount sigs1
      rw [hsig] at h1
      rcases parseOneRecord_records _ _ _ _ h1 with rfl | hfa
      · exact hsrc
      · exact sameRecordCount_of_forall₂ _ _ hfa hsrc

theorem stream_sameRecordCount (st : EdfState) (d : Option ℚ) (st' : EdfState)
    (h : stream st d = .ok st') (hsrc : sameRecordCount st.signals) :
    sameRecordCount st'.signals := by
  rcases hst : st.status
  all_goals rw [stream, hst] at h
  all_goals dsimp only at h
  · -- opened: fresh empty signals
    rcases hext : extract st (EdfHeader.fieldsSizes.sum : ℤ) with ⟨hbytes, st1⟩
    rw [hext] at h
    dsimp only at h
    rcases h1 : edfHeaderParse hbytes with e | hdr <;> rw [h1] at h
    · cases h
    cases h
    intro s hs t hts
    rw [List.eq_of_mem_replicate hs, List.eq_of_mem_replicate hts]
  · -- header: metadata parsing preserves samples
    rcases hext : extract st st.signalHeaderSize with ⟨mbytes, st1⟩
    rw [hext] at h
    dsimp only at h
    rcases h1 : parseMetadata st.numberSignals st.signals mbytes with e | p <;>
      rw [h1] at h
    · cases h
    rcases p with ⟨sigs, spr⟩
    cases h
    exact sameRecordCount_of_map_eq _ _
      (parseMetadata_samples _ _ _ sigs spr h1) hsrc
  · exact parseLoop_sameRecordCount _ _ _ h hsrc
  · exact parseLoop_sameRecordCount _ _ _ h hsrc
  · cases h
    exact hsrc

/-- C10: after any sequence of `stream` calls (with arbitrary duration
arguments) that all return normally, every signal descriptor of the
recording holds the same number of ingested records: every decoded record
block appends exactly one record to every descriptor, fresh descriptors
all start empty, and the other stages never touch the sample lists. -/
theorem c10_equal_record_counts (ds : List (Option ℚ)) :
    ∀ (st st' : EdfState), sameRecordCount st.signals →
    runStreamCalls ds st = .ok st' →
    sameRecordCount st'.signals := by
  induction ds with
  | nil =>
      intro st st' hsrc h
      cases h
      exact hsrc
  | cons d rest ih =>
      intro st st' hsrc h
      rw [runStreamCalls] at h
      rcases h1 : stream st d with e | st1 <;> rw [h1] at h
      · cases h
      exact ih st1 st' (stream_sameRecordCount st d st1 h1 hsrc) h

/-- Witness for C10: after two calls on a one-signal blob every
descriptor holds the same record count (trivially, but through the
theorem), starting from the fresh state whose signal list is empty. -/
theorem c10_equal_record_counts_witness :
    ∃ st', runStreamCalls [none, none] (initState c4WitBlob) = .ok st' ∧
      sameRecordCount st'.signals := by
  have hrun : ∃ st', runStreamCalls [none, none] (initState c4WitBlob) = .ok st' :=
    ⟨c4WitSt2, by with_unfolding_all rfl⟩
  obtain ⟨st', h⟩ := hrun
  exact ⟨st', h, c10_equal_record_counts [none, none] (initState c4WitBlob) st'
    (fun s hs => absurd hs (by simp [initState])) h⟩

/-! ## Claim C2 — column-major metadata parsing -/

/-- Offset factor of metadata field `f`: the sum of the widths of the
fields before it. -/
def metaOffset (f : ℕ) : ℕ := (SIGNAL_HEADER_FIELDS_SIZE.take f).sum

/-- Width of metadata field `f`. -/
def metaWidth (f : ℕ) : ℕ := SIGNAL_HEADER_FIELDS_SIZE.getD f 0

/-- The fixed-width chunk of metadata field `f` belonging to signal `i`
inside a column-major metadata block for `N` signals: the bytes at offset
`metaOffset f × N + i × metaWidth f`. -/
def metaChunkStr (bytes : List ℕ) (N f i : ℕ) : String :=
  byteArrayToString (natSlice bytes (metaOffset f * N + i * metaWidth f) (metaWidth f))

/-- The descriptor state signal `i` must reach after the metadata stage:
every one of its ten fields is its own column chunk, and its scaler is
built from its own four bounds. -/
def c2ExpectedSignal (bytes : List ℕ) (N : ℕ) (sc : ℕ → ScalerState) (i : ℕ) : Signal :=
  ⟨[("Label", metaChunkStr bytes N 0 i),
    ("Transducer Type", metaChunkStr bytes N 1 i),
    ("Physical dimension", metaChunkStr bytes N 2 i),
    ("Physical minimum", metaChunkStr bytes N 3 i),
    ("Physical maximum", metaChunkStr bytes N 4 i),
    ("Digital minimum", metaChunkStr bytes N 5 i),
    ("Digital maximum", metaChunkStr bytes N 6 i),
    ("Prefiltering", metaChunkStr bytes N 7 i),
    ("Samples", metaChunkStr bytes N 8 i),
    ("Reserved", metaChunkStr bytes N 9 i)], [], some (sc i)⟩

theorem natSlice_natSlice {α : Type} (l : List α) (a m b k : ℕ) (h : b + k ≤ m) :
    natSlice (natSlice l a m) b k = natSlice l (a + b) k := by
  simp only [natSlice]
  rw [List.drop_take m b, List.drop_drop, List.take_take,
    show min k (m - b) = k from by omega]


theorem forall₂_map_of_forall {γ α β : Type} (R : α → β → Prop) (f : γ → α) (g : γ → β) :
    ∀ l : List γ, (∀ x ∈ l, R (f x) (g x)) → List.Forall₂ R (l.map f) (l.map g)
  | [], _ => .nil
  | x :: l, h =>
      .cons (h x (by simp))
        (forall₂_map_of_forall R f g l (fun y hy => h y (by simp [hy])))

theorem setMetadataAll_ok_forall₂ (name : String) :
    ∀ {sigs : List Signal} {ms : List String} {outs : List Signal},
      List.Forall₂ (fun (p : Signal × String) (o : Signal) =>
        p.1.setMetadata name p.2 = .ok o) (sigs.zip ms) outs →
      sigs.length = ms.length →
      setMetadataAll name sigs ms = .ok outs
  | [], ms, outs, hfa, hlen => by
    have : ms = [] := by
      cases ms with
      | nil => rfl
      | cons m ms' => simp at hlen
    subst this
    cases hfa
    rfl
  | s :: ss, ms, outs, hfa, hlen => by
    cases ms with
    | nil => simp at hlen
    | cons m ms' =>
      rw [List.zip_cons_cons] at hfa
      cases hfa with
      | cons hab htl =>
        rw [setMetadataAll, hab, except_bind_ok,
          setMetadataAll_ok_forall₂ name htl (by simpa using hlen), except_bind_ok]

theorem setMetadata_append_small (md : List (String × String)) (name v : String)
    (hnotin : md.any (fun p => p.1 = name) = false) (hlen : md.length + 1 ≠ 10) :
    Signal.setMetadata ⟨md, [], none⟩ name v = .ok ⟨md ++ [(name, v)], [], none⟩ := by
  have hset : dictSet md name v = md ++ [(name, v)] := by
    rw [dictSet, if_neg (by simp [hnotin])]
  rw [Signal.setMetadata]
  dsimp only
  rw [hset, if_neg (by simp [SIGNAL_HEADER_FIELDS]; omega)]

theorem setMetadata_append_last (md : List (String × String)) (name v : String)
    (hnotin : md.any (fun p => p.1 = name) = false) (hlen : md.length + 1 = 10)
    (pmax pmin dmax dmin : String)
    (h1 : dictGet (md ++ [(name, v)]) "Physical maximum" = some pmax)
    (h2 : dictGet (md ++ [(name, v)]) "Physical minimum" = some pmin)
    (h3 : dictGet (md ++ [(name, v)]) "Digital maximum" = some dmax)
    (h4 : dictGet (md ++ [(name, v)]) "Digital minimum" = some dmin)
    (sc : ScalerState)
    (hsc : scalerInit (.str pmax) (.str pmin) (.str dmax) (.str dmin) = .ok sc) :
    Signal.setMetadata ⟨md, [], none⟩ name v = .ok ⟨md ++ [(name, v)], [], some sc⟩ := by
  have hset : dictSet md name v = md ++ [(name, v)] := by
    rw [dictSet, if_neg (by simp [hnotin])]
  rw [Signal.setMetadata]
  dsimp only
  rw [hset, if_pos (by simp [SIGNAL_HEADER_FIELDS]; omega), h1, h2, h3, h4]
  dsimp only
  rw [hsc]

theorem parseMetadataFields_step (N : ℕ) (bytes : List ℕ) (hblen : bytes.length = 256 * N)
    (name : String) (w off : ℕ) (rest : List (String × ℕ)) (start : ℤ)
    (hstart : start = (off : ℤ) * (N : ℤ)) (hoffw : off + w ≤ 256)
    (f g : ℕ → Signal)
    (hset : ∀ i < N, (f i).setMetadata name
        (byteArrayToString (natSlice bytes (off * N + i * w) w)) = .ok (g i)) :
    parseMetadataFields (N : ℤ) bytes ((name, w) :: rest) start ((List.range N).map f) =
      parseMetadataFields (N : ℤ) bytes rest (start + (w : ℤ) * (N : ℤ))
        ((List.range N).map g) := by
  have hle : off * N + w * N ≤ bytes.length := by
    rw [hblen]
    have := Nat.mul_le_mul_right N hoffw
    rw [Nat.add_mul] at this
    omega
  have hcb : pySlice bytes start (start + (w : ℤ) * (N : ℤ))
      = natSlice bytes (off * N) (w * N) := by
    rw [hstart, show (off : ℤ) * (N : ℤ) = ((off * N : ℕ) : ℤ) from by push_cast; ring,
      show ((off * N : ℕ) : ℤ) + (w : ℤ) * (N : ℤ)
        = ((off * N : ℕ) : ℤ) + ((w * N : ℕ) : ℤ) from by push_cast; ring]
    exact pySlice_eq_natSlice bytes (off * N) (w * N) hle
  have hcblen : (natSlice bytes (off * N) (w * N)).length = w * N :=
    natSlice_length bytes (off * N) (w * N) hle
  have hchunks : (List.range ((N : ℤ)).toNat).map
      (fun i => byteArrayToString (natSlice (pySlice bytes start (start + (w : ℤ) * (N : ℤ)))
        (i * w) w))
      = (List.range N).map
        (fun i => byteArrayToString (natSlice bytes (off * N + i * w) w)) := by
    rw [Int.toNat_natCast, hcb]
    refine List.map_congr_left (fun i hi => ?_)
    rw [natSlice_natSlice bytes (off * N) (w * N) (i * w) w
      (by have : i + 1 ≤ N := List.mem_range.mp hi; nlinarith)]
  have hfa : List.Forall₂ (fun (p : Signal × String) (o : Signal) =>
      p.1.setMetadata name p.2 = .ok o)
      (((List.range N).map f).zip ((List.range N).map
        (fun i => byteArrayToString (natSlice bytes (off * N + i * w) w))))
      ((List.range N).map g) := by
    rw [List.zip_map']
    exact forall₂_map_of_forall _ _ _ _ (fun i hi => hset i (List.mem_range.mp hi))
  have hsma := setMetadataAll_ok_forall₂ name hfa (by simp)
  rw [parseMetadataFields]
  dsimp only
  rw [if_pos (by rw [hcb, hcblen, Int.toNat_natCast]), hchunks, hsma, except_bind_ok]

theorem sumSamplesPerRecord_ok :
    ∀ {l : List Signal} {cs : List ℤ},
      List.Forall₂ (fun s c => s.numberSamplesPerRecord = .ok c) l cs →
      sumSamplesPerRecord l = .ok cs.sum
  | [], [], _ => by simp [sumSamplesPerRecord]
  | s :: l, c :: cs, h => by
    cases h with
    | cons hab htl =>
      rw [sumSamplesPerRecord, hab, except_bind_ok, sumSamplesPerRecord_ok htl,
        except_bind_ok, List.sum_cons]

theorem c2_parseMetadata (N : ℕ) (bytes : List ℕ) (hblen : bytes.length = 256 * N)
    (sc : ℕ → ScalerState) (cnt : ℕ → ℤ)
    (hsc : ∀ i < N, scalerInit (.str (metaChunkStr bytes N 4 i))
        (.str (metaChunkStr bytes N 3 i)) (.str (metaChunkStr bytes N 6 i))
        (.str (metaChunkStr bytes N 5 i)) = .ok (sc i))
    (hcnt : ∀ i < N, pyIntOfString (metaChunkStr bytes N 8 i) = some (cnt i)) :
    parseMetadata (N : ℤ) (List.replicate N Signal.init) bytes =
      .ok ((List.range N).map (c2ExpectedSignal bytes N sc),
        ((List.range N).map cnt).sum) := by
  have hrep : List.replicate N Signal.init = (List.range N).map (fun _ => Signal.init) := by
    simp
  rw [parseMetadata, hrep]
  rw [show SIGNAL_HEADER_FIELDS.zip SIGNAL_HEADER_FIELDS_SIZE =
    [("Label", 16), ("Transducer Type", 80), ("Physical dimension", 8),
     ("Physical minimum", 8), ("Physical maximum", 8), ("Digital minimum", 8),
     ("Digital maximum", 8), ("Prefiltering", 80), ("Samples", 8), ("Reserved", 32)]
    from rfl]
  rw [parseMetadataFields_step N bytes hblen "Label" 16 0 _ 0
    (by push_cast; ring) (by omega) (fun _ => Signal.init)
    (fun i => ⟨[("Label", byteArrayToString (natSlice bytes (0 * N + i * 16) 16))],
      [], none⟩)
    (fun i hi => setMetadata_append_small [] "Label" _ (by simp) (by simp))]
  rw [parseMetadataFields_step N bytes hblen "Transducer Type" 80 16 _ _
    (by push_cast; ring) (by omega)
    (fun i => ⟨[("Label", byteArrayToString (natSlice bytes (0 * N + i * 16) 16))],
      [], none⟩)
    (fun i => ⟨[("Label", byteArrayToString (natSlice bytes (0 * N + i * 16) 16)),
      ("Transducer Type", byteArrayToString (natSlice bytes (16 * N + i * 80) 80))],
      [], none⟩)
    (fun i hi => setMetadata_append_small _ "Transducer Type" _ (by simp) (by simp))]
  rw [parseMetadataFields_step N bytes hblen "Physical dimension" 8 96 _ _
    (by push_cast; ring) (by omega)
    (fun i => ⟨[("Label", byteArrayToString (natSlice bytes (0 * N + i * 16) 16)),
      ("Transducer Type", byteArrayToString (natSlice bytes (16 * N + i * 80) 80))],
      [], none⟩)
    (fun i => ⟨[("Label", byteArrayToString (natSlice bytes (0 * N + i * 16) 16)),
      ("Transducer Type", byteArrayToString (natSlice bytes (16 * N + i * 80) 80)),
      ("Physical dimension", byteArrayToString (natSlice bytes (96 * N + i * 8) 8))],
      [], none⟩)
    (fun i hi => setMetadata_append_small _ "Physical dimension" _ (by simp) (by simp))]
  rw [parseMetadataFields_step N bytes hblen "Physical minimum" 8 104 _ _
    (by push_cast; ring) (by omega)
    (fun i => ⟨[("Label", byteArrayToString (natSlice bytes (0 * N + i * 16) 16)),
      ("Transducer Type", byteArrayToString (natSlice bytes (16 * N + i * 80) 80)),
      ("Physical dimension", byteArrayToString (natSlice bytes (96 * N + i * 8) 8))],
      [], none⟩)
    (fun i => ⟨[("Label", byteArrayToString (natSlice bytes (0 * N + i * 16) 16)),
      ("Transducer Type", byteArrayToString (natSlice bytes (16 * N + i * 80) 80)),
      ("Physical dimension", byteArrayToString (natSlice bytes (96 * N + i * 8) 8)),
      ("Physical minimum", byteArrayToString (natSlice bytes (104 * N + i * 8) 8))],
      [], none⟩)
    (fun i hi => setMetadata_append_small _ "Physical minimum" _ (by simp) (by simp))]
  rw [parseMetadataFields_step N bytes hblen "Physical maximum" 8 112 _ _
    (by push_cast; ring) (by omega)
    (fun i => ⟨[("Label", byteArrayToString (natSlice bytes (0 * N + i * 16) 16)),
      ("Transducer Type", byteArrayToString (natSlice bytes (16 * N + i * 80) 80)),
      ("Physical dimension", byteArrayToString (natSlice bytes (96 * N + i * 8) 8)),
      ("Physical minimum", byteArrayToString (natSlice bytes (104 * N + i * 8) 8))],
      [], none⟩)
    (fun i => ⟨[("Label", byteArrayToString (natSlice bytes (0 * N + i * 16) 16)),
      ("Transducer Type", byteArrayToString (natSlice bytes (16 * N + i * 80) 80)),
      ("Physical dimension", byteArrayToString (natSlice bytes (96 * N + i * 8) 8)),
      ("Physical minimum", byteArrayToString (natSlice bytes (104 * N + i * 8) 8)),
      ("Physical maximum", byteArrayToString (natSlice bytes (112 * N + i * 8) 8))],
      [], none⟩)
    (fun i hi => setMetadata_append_small _ "Physical maximum" _ (by simp) (by simp))]
  rw [parseMetadataFields_step N bytes hblen "Digital minimum" 8 120 _ _
    (by push_cast; ring) (by omega)
    (fun i => ⟨[("Label", byteArrayToString (natSlice bytes (0 * N + i * 16) 16)),
      ("Transducer Type", byteArrayToString (natSlice bytes (16 * N + i * 80) 80)),
      ("Physical dimension", byteArrayToString (natSlice bytes (96 * N + i * 8) 8)),
      ("Physical minimum", byteArrayToString (natSlice bytes (104 * N + i * 8) 8)),
      ("Physical maximum", byteArrayToString (natSlice bytes (112 * N + i * 8) 8))],
      [], none⟩)
    (fun i => ⟨[("Label", byteArrayToString (natSlice bytes (0 * N + i * 16) 16)),
      ("Transducer Type", byteArrayToString (natSlice bytes (16 * N + i * 80) 80)),
      ("Physical dimension", byteArrayToString (natSlice bytes (96 * N + i * 8) 8)),
      ("Physical minimum", byteArrayToString (natSlice bytes (104 * N + i * 8) 8)),
      ("Physical maximum", byteArrayToString (natSlice bytes (112 * N + i * 8) 8)),
      ("Digital minimum", byteArrayToString (natSlice bytes (120 * N + i * 8) 8))],
      [], none⟩)
    (fun i hi => setMetadata_append_small _ "Digital minimum" _ (by simp) (by simp))]
  rw [parseMetadataFields_step N bytes hblen "Digital maximum" 8 128 _ _
    (by push_cast; ring) (by omega)
    (fun i => ⟨[("Label", byteArrayToString (natSlice bytes (0 * N + i * 16) 16)),
      ("Transducer Type", byteArrayToString (natSlice bytes (16 * N + i * 80) 80)),
      ("Physical dimension", byteArrayToString (natSlice bytes (96 * N + i * 8) 8)),
      ("Physical minimum", byteArrayToString (natSlice bytes (104 * N + i * 8) 8)),
      ("Physical maximum", byteArrayToString (natSlice bytes (112 * N + i * 8) 8)),
      ("Digital minimum", byteArrayToString (natSlice bytes (120 * N + i * 8) 8))],
      [], none⟩)
    (fun i => ⟨[("Label", byteArrayToString (natSlice bytes (0 * N + i * 16) 16)),
      ("Transducer Type", byteArrayToString (natSlice bytes (16 * N + i * 80) 80)),
      ("Physical dimension", byteArrayToString (natSlice bytes (96 * N + i * 8) 8)),
      ("Physical minimum", byteArrayToString (natSlice bytes (104 * N + i * 8) 8)),
      ("Physical maximum", byteArrayToString (natSlice bytes (112 * N + i * 8) 8)),
      ("Digital minimum", byteArrayToString (natSlice bytes (120 * N + i * 8) 8)),
      ("Digital maximum", byteArrayToString (natSlice bytes (128 * N + i * 8) 8))],
      [], none⟩)
    (fun i hi => setMetadata_append_small _ "Digital maximum" _ (by simp) (by simp))]
  rw [parseMetadataFields_step N bytes hblen "Prefiltering" 80 136 _ _
    (by push_cast; ring) (by omega)
    (fun i => ⟨[("Label", byteArrayToString (natSlice bytes (0 * N + i * 16) 16)),
      ("Transducer Type", byteArrayToString (natSlice bytes (16 * N + i * 80) 80)),
      ("Physical dimension", byteArrayToString (natSlice bytes (96 * N + i * 8) 8)),
      ("Physical minimum", byteArrayToString (natSlice bytes (104 * N + i * 8) 8)),
      ("Physical maximum", byteArrayToString (natSlice bytes (112 * N + i * 8) 8)),
      ("Digital minimum", byteArrayToString (natSlice bytes (120 * N + i * 8) 8)),
      ("Digital maximum", byteArrayToString (natSlice bytes (128 * N + i * 8) 8))],
      [], none⟩)
    (fun i => ⟨[("Label", byteArrayToString (natSlice bytes (0 * N + i * 16) 16)),
      ("Transducer Type", byteArrayToString (natSlice bytes (16 * N + i * 80) 80)),
      ("Physical dimension", byteArrayToString (natSlice bytes (96 * N + i * 8) 8)),
      ("Physical minimum", byteArrayToString (natSlice bytes (104 * N + i * 8) 8)),
      ("Physical maximum", byteArrayToString (natSlice bytes (112 * N + i * 8) 8)),
      ("Digital minimum", byteArrayToString (natSlice bytes (120 * N + i * 8) 8)),
      ("Digital maximum", byteArrayToString (natSlice bytes (128 * N + i * 8) 8)),
      ("Prefiltering", byteArrayToString (natSlice bytes (136 * N + i * 80) 80))],
      [], none⟩)
    (fun i hi => setMetadata_append_small _ "Prefiltering" _ (by simp) (by simp))]
  rw [parseMetadataFields_step N bytes hblen "Samples" 8 216 _ _
    (by push_cast; ring) (by omega)
    (fun i => ⟨[("Label", byteArrayToString (natSlice bytes (0 * N + i * 16) 16)),
      ("Transducer Type", byteArrayToString (natSlice bytes (16 * N + i * 80) 80)),
      ("Physical dimension", byteArrayToString (natSlice bytes (96 * N + i * 8) 8)),
      ("Physical minimum", byteArrayToString (natSlice bytes (104 * N + i * 8) 8)),
      ("Physical maximum", byteArrayToString (natSlice bytes (112 * N + i * 8) 8)),
      ("Digital minimum", byteArrayToString (natSlice bytes (120 * N + i * 8) 8)),
      ("Digital maximum", byteArrayToString (natSlice bytes (128 * N + i * 8) 8)),
      ("Prefiltering", byteArrayToString (natSlice bytes (136 * N + i * 80) 80))],
      [], none⟩)
    (fun i => ⟨[("Label", byteArrayToString (natSlice bytes (0 * N + i * 16) 16)),
      ("Transducer Type", byteArrayToString (natSlice bytes (16 * N + i * 80) 80)),
      ("Physical dimension", byteArrayToString (natSlice bytes (96 * N + i * 8) 8)),
      ("Physical minimum", byteArrayToString (natSlice bytes (104 * N + i * 8) 8)),
      ("Physical maximum", byteArrayToString (natSlice bytes (112 * N + i * 8) 8)),
      ("Digital minimum", byteArrayToString (natSlice bytes (120 * N + i * 8) 8)),
      ("Digital maximum", byteArrayToString (natSlice bytes (128 * N + i * 8) 8)),
      ("Prefiltering", byteArrayToString (natSlice bytes (136 * N + i * 80) 80)),
      ("Samples", byteArrayToString (natSlice bytes (216 * N + i * 8) 8))],
      [], none⟩)
    (fun i hi => setMetadata_append_small _ "Samples" _ (by simp) (by simp))]
  rw [parseMetadataFields_step N bytes hblen "Reserved" 32 224 _ _
    (by push_cast; ring) (by omega)
    (fun i => ⟨[("Label", byteArrayToString (natSlice bytes (0 * N + i * 16) 16)),
      ("Transducer Type", byteArrayToString (natSlice bytes (16 * N + i * 80) 80)),
      ("Physical dimension", byteArrayToString (natSlice bytes (96 * N + i * 8) 8)),
      ("Physical minimum", byteArrayToString (natSlice bytes (104 * N + i * 8) 8)),
      ("Physical maximum", byteArrayToString (natSlice bytes (112 * N + i * 8) 8)),
      ("Digital minimum", byteArrayToString (natSlice bytes (120 * N + i * 8) 8)),
      ("Digital maximum", byteArrayToString (natSlice bytes (128 * N + i * 8) 8)),
      ("Prefiltering", byteArrayToString (natSlice bytes (136 * N + i * 80) 80)),
      ("Samples", byteArrayToString (natSlice bytes (216 * N + i * 8) 8))],
      [], none⟩)
    (fun i => ⟨[("Label", byteArrayToString (natSlice bytes (0 * N + i * 16) 16)),
      ("Transducer Type", byteArrayToString (natSlice bytes (16 * N + i * 80) 80)),
      ("Physical dimension", byteArrayToString (natSlice bytes (96 * N + i * 8) 8)),
      ("Physical minimum", byteArrayToString (natSlice bytes (104 * N + i * 8) 8)),
      ("Physical maximum", byteArrayToString (natSlice bytes (112 * N + i * 8) 8)),
      ("Digital minimum", byteArrayToString (natSlice bytes (120 * N + i * 8) 8)),
      ("Digital maximum", byteArrayToString (natSlice bytes (128 * N + i * 8) 8)),
      ("Prefiltering", byteArrayToString (natSlice bytes (136 * N + i * 80) 80)),
      ("Samples", byteArrayToString (natSlice bytes (216 * N + i * 8) 8)),
      ("Reserved", byteArrayToString (natSlice bytes (224 * N + i * 32) 32))],
      [], some (sc i)⟩)
    (fun i hi => setMetadata_append_last _ "Reserved" _ (by simp) (by simp)
      _ _ _ _ (by simp [dictGet]) (by simp [dictGet]) (by simp [dictGet])
      (by simp [dictGet]) (sc i)
      (show scalerInit (.str (byteArrayToString (natSlice bytes (112 * N + i * 8) 8)))
        (.str (byteArrayToString (natSlice bytes (104 * N + i * 8) 8)))
        (.str (byteArrayToString (natSlice bytes (128 * N + i * 8) 8)))
        (.str (byteArrayToString (natSlice bytes (120 * N + i * 8) 8))) = .ok (sc i)
        from hsc i hi))]
  rw [show ∀ start sigs, parseMetadataFields (N : ℤ) bytes [] start sigs = .ok sigs
    from fun _ _ => by rw [parseMetadataFields]]
  rw [except_bind_ok]
  rw [@sumSamplesPerRecord_ok _ ((List.range N).map cnt)
    (forall₂_map_of_forall _ _ _ _ (fun i hi => by
      show Signal.numberSamplesPerRecord _ = .ok (cnt i)
      rw [Signal.numberSamplesPerRecord]
      rw [show dictGet (⟨[("Label", byteArrayToString (natSlice bytes (0 * N + i * 16) 16)),
        ("Transducer Type", byteArrayToString (natSlice bytes (16 * N + i * 80) 80)),
        ("Physical dimension", byteArrayToString (natSlice bytes (96 * N + i * 8) 8)),
        ("Physical minimum", byteArrayToString (natSlice bytes (104 * N + i * 8) 8)),
        ("Physical maximum", byteArrayToString (natSlice bytes (112 * N + i * 8) 8)),
        ("Digital minimum", byteArrayToString (natSlice bytes (120 * N + i * 8) 8)),
        ("Digital maximum", byteArrayToString (natSlice bytes (128 * N + i * 8) 8)),
        ("Prefiltering", byteArrayToString (natSlice bytes (136 * N + i * 80) 80)),
        ("Samples", byteArrayToString (natSlice bytes (216 * N + i * 8) 8)),
        ("Reserved", byteArrayToString (natSlice bytes (224 * N + i * 32) 32))],
        [], some (sc i)⟩ : Signal).metadata "Samples"
        = some (byteArrayToString (natSlice bytes (216 * N + i * 8) 8))
        from by simp [dictGet]]
      dsimp only
      rw [show pyIntOfString (byteArrayToString (natSlice bytes (216 * N + i * 8) 8))
        = some (cnt i) from hcnt i (List.mem_range.mp hi)]))]
  rw [except_bind_ok]
  with_unfolding_all rfl

/-- C2: when `stream` is called in the HeaderParsed stage with `N`
signals, the signal-metadata block is parsed in column-major order: for
each field index `f` (widths 16, 80, 8, 8, 8, 8, 8, 80, 8, 32 in the
order label, transducerType, physicalDimension, physicalMinimum,
physicalMaximum, digitalMinimum, digitalMaximum, prefiltering,
samplesPerRecord, reserved), the block bytes starting at offset
`sum(width[0..f-1]) × N` are split into `N` fixed-width chunks and chunk
`i` goes to descriptor `i` (`metaChunkStr bytes N f i` reads exactly the
bytes at `metaOffset f × N + i × metaWidth f`); descriptor `i`'s whole
dictionary — its label together with its own transducer type — comes from
index `i`, so a label is never paired with another descriptor's
transducer type.  (The scaler/count hypotheses say each signal's bound
and sample-count chunks parse, which a completed metadata stage always
forces.) -/
theorem c2_column_major_metadata (st : EdfState) (d : Option ℚ) (N : ℕ)
    (bytes rest : List ℕ) (sc : ℕ → ScalerState) (cnt : ℕ → ℤ)
    (hstatus : st.status = .header)
    (hns : st.numberSignals = (N : ℤ))
    (hshs : st.signalHeaderSize = ((256 * N : ℕ) : ℤ))
    (hsigs : st.signals = List.replicate N Signal.init)
    (hcontent : st.binaryContent = bytes ++ rest)
    (hblen : bytes.length = 256 * N)
    (hsc : ∀ i < N, scalerInit (.str (metaChunkStr bytes N 4 i))
        (.str (metaChunkStr bytes N 3 i)) (.str (metaChunkStr bytes N 6 i))
        (.str (metaChunkStr bytes N 5 i)) = .ok (sc i))
    (hcnt : ∀ i < N, pyIntOfString (metaChunkStr bytes N 8 i) = some (cnt i)) :
    stream st d = .ok { st with
      status := .metadata
      binaryContent := rest
      signals := (List.range N).map (c2ExpectedSignal bytes N sc)
      samplesPerRecord := ((List.range N).map cnt).sum
      recordSize := 2 * ((List.range N).map cnt).sum } := by
  have hpm := c2_parseMetadata N bytes hblen sc cnt hsc hcnt
  rw [stream, hstatus]
  dsimp only
  by_cases hc : st.binaryContent.isEmpty
  · -- exhausted source: the block and the remainder are both empty
    have hbr : bytes = [] ∧ rest = [] := by
      rw [hcontent] at hc
      simpa [List.isEmpty_iff] using hc
    have hN : N = 0 := by
      have := hblen
      rw [hbr.1] at this
      simp at this
      omega
    rw [extract, if_pos hc]
    dsimp only
    rw [hns, hsigs, show st.binaryContent = [] from by simpa [List.isEmpty_iff] using hc]
    rw [show ([] : List ℕ) = bytes from hbr.1.symm, hpm]
    dsimp only
    subst hN
    simp only [List.range_zero, List.map_nil, List.sum_nil]
    rw [show rest = [] from hbr.2, hbr.1]
  · rw [extract, if_neg hc]
    dsimp only
    have htake : pyTake st.binaryContent st.signalHeaderSize = bytes := by
      rw [hcontent, hshs, pyTake_eq_take _ _ (by positivity), Int.toNat_natCast,
        show 256 * N = bytes.length from hblen.symm, List.take_left]
    have hdrop : pyDrop st.binaryContent st.signalHeaderSize = rest := by
      rw [hcontent, hshs, pyDrop_eq_drop _ _ (by positivity), Int.toNat_natCast,
        show 256 * N = bytes.length from hblen.symm, List.drop_left]
    rw [htake, hdrop, hns, hsigs, hpm]

/-- A column-major metadata block for two signals: first both labels,
then both transducer types, and so on. -/
def c2WitBytes : List ℕ :=
  mkField "Sig1" 16 ++ mkField "Sig2" 16 ++
  mkField "AgCl" 80 ++ mkField "" 80 ++
  mkField "uV" 8 ++ mkField "" 8 ++
  mkField "-10" 8 ++ mkField "0" 8 ++
  mkField "10" 8 ++ mkField "1" 8 ++
  mkField "-100" 8 ++ mkField "0" 8 ++
  mkField "100" 8 ++ mkField "10" 8 ++
  mkField "" 80 ++ mkField "" 80 ++
  mkField "3" 8 ++ mkField "4" 8 ++
  mkField "" 32 ++ mkField "" 32

/-- The header-stage state of the C2 witness: two fresh descriptors, the
column-major block followed by two stray record bytes. -/
def c2WitState : EdfState :=
  { binaryContent := c2WitBytes ++ [9, 9], status := .header,
    header := { version := "0", patient := "", recordId := "", startDate := "",
                startTime := "", headerSize := 768, reserved := "",
                numberRecords := 1, recordDuration := 1, numberSignals := 2 },
    numberSignals := 2, numberRecords := 1, signalHeaderSize := 512,
    samplesPerRecord := 0, recordSize := 0,
    signals := List.replicate 2 Signal.init }

/-- Witness for C2: the two-signal column-major block routes chunk `i` of
every field to descriptor `i` (e.g. "Sig1" stays with transducer "AgCl"
and count 3, "Sig2" with the blank transducer and count 4). -/
theorem c2_column_major_metadata_witness :
    stream c2WitState none = .ok { c2WitState with
      status := .metadata
      binaryContent := [9, 9]
      signals := (List.range 2).map (c2ExpectedSignal c2WitBytes 2
        (fun i => if i = 0 then .bounds 20 200 (-10) (-100) else .bounds 1 10 0 0))
      samplesPerRecord := ((List.range 2).map
        (fun i => if i = 0 then (3 : ℤ) else 4)).sum
      recordSize := 2 * ((List.range 2).map
        (fun i => if i = 0 then (3 : ℤ) else 4)).sum } := by
  refine c2_column_major_metadata c2WitState none 2 c2WitBytes [9, 9]
    (fun i => if i = 0 then .bounds 20 200 (-10) (-100) else .bounds 1 10 0 0)
    (fun i => if i = 0 then (3 : ℤ) else 4)
    rfl rfl (by decide) rfl rfl (by decide) ?_ ?_
  · intro i hi
    match i with
    | 0 => with_unfolding_all rfl
    | 1 => with_unfolding_all rfl
    | n + 2 => exact absurd hi (by omega)
  · intro i hi
    match i with
    | 0 => with_unfolding_all rfl
    | 1 => with_unfolding_all rfl
    | n + 2 => exact absurd hi (by omega)
